import Mathlib

/-!
Verification of the live-markdown preview core: a shallow embedding of the
session store (src/session.rs), the autocmd rate-limiting gate
(src/plugin/autocmd.rs) and the markdown renderer (src/render.rs), together
with theorems settling the specification claims about them.

Conventions of the embedding:
* Rust machine integers become Nat or Int (no overflow is reachable in the
  modelled operations: tick counters, hashes and timestamps are only compared
  for equality or order).
* `Instant` timestamps become Nat milliseconds; `duration_since` becomes
  truncated subtraction (Instant is monotone, so the argument never exceeds
  `now` along any real trace).
* `HashMap`/`HashSet` become association lists/lists with distinct keys; the
  operations used by the sources (entry/get/get_mut/insert/remove/drain,
  insert/contains) are mirrored exactly.
* The external markdown parser (pulldown_cmark) is not code of this
  repository: its event stream is a parameter, and the renderer is embedded
  as the fold over that stream that src/render.rs performs.  Likewise the
  std hasher behind `content_hash` (DefaultHasher) is external, so the
  fingerprint function is a parameter of the session operations.
* Each stateful operation returns its result, the successor state, and the
  list of events it sent, tagged with the hub (broadcast channel) they were
  sent to.
-/

namespace LiveMarkdown

/-! ### Rust string primitives used by the sources -/

/-- Unicode White_Space test, mirroring `char::is_whitespace` from Rust std
(the exact code-point list of the White_Space property). -/
def rustIsWhitespace (c : Char) : Bool :=
  decide ((0x09 ≤ c.toNat ∧ c.toNat ≤ 0x0D) ∨ c.toNat = 0x20 ∨ c.toNat = 0x85 ∨
    c.toNat = 0xA0 ∨ c.toNat = 0x1680 ∨ (0x2000 ≤ c.toNat ∧ c.toNat ≤ 0x200A) ∨
    c.toNat = 0x2028 ∨ c.toNat = 0x2029 ∨ c.toNat = 0x202F ∨ c.toNat = 0x205F ∨
    c.toNat = 0x3000)

/-- `str::trim`: strip leading and trailing whitespace. -/
def rustTrim (s : String) : String :=
  ⟨((s.data.dropWhile rustIsWhitespace).reverse.dropWhile rustIsWhitespace).reverse⟩

/-- `u8::to_ascii_lowercase` on a character: map only the ASCII range A-Z. -/
def asciiLowerChar (c : Char) : Char :=
  if 0x41 ≤ c.toNat ∧ c.toNat ≤ 0x5A then Char.ofNat (c.toNat + 32) else c

/-- `str::to_ascii_lowercase`. -/
def asciiLower (s : String) : String :=
  ⟨s.data.map asciiLowerChar⟩

/-- `str::starts_with` with a string pattern: byte-level prefix, which for
valid UTF-8 coincides with character-level prefix. -/
def startsWithStr (s pre : String) : Bool :=
  pre.data.isPrefixOf s.data

/-! ### src/render.rs: `sanitize_url` and `sanitize_image_url` -/

/-- `sanitize_url` (src/render.rs lines 619-634). -/
def sanitize_url (url : String) : String :=
  let trimmed := rustTrim url
  if trimmed = "" then "#"
  else
    let lower := asciiLower trimmed
    if startsWithStr lower "javascript:" || startsWithStr lower "data:" ||
        startsWithStr lower "vbscript:" then "#"
    else trimmed

/-- `sanitize_image_url` (src/render.rs lines 636-651). -/
def sanitize_image_url (url : String) : String :=
  let trimmed := rustTrim url
  if trimmed = "" then "#"
  else
    let lower := asciiLower trimmed
    if startsWithStr lower "javascript:" || startsWithStr lower "vbscript:" then "#"
    else if startsWithStr lower "data:" && !startsWithStr lower "data:image/" then "#"
    else trimmed

/-! ### src/plugin/autocmd.rs: the debounce/throttle gate

`GateState` holds a single `Option` slot per event kind (not a per-document
map): the last allowed content emission as `(bufnr, instant)` and the last
allowed cursor emission as `(bufnr, instant, line)`. -/

structure AutocmdGate where
  content_window : Nat
  cursor_window : Nat

structure GateState where
  last_content_emit : Option (Int × Nat)
  last_cursor_emit : Option (Int × Nat × Nat)

/-- `GateState::default()`: both slots empty. -/
def GateState.initial : GateState := ⟨none, none⟩

/-- `AutocmdGate::allow_content_emit` (src/plugin/autocmd.rs lines 27-41),
with the current instant passed explicitly. -/
def allow_content_emit (g : AutocmdGate) (st : GateState) (bufnr : Int)
    (now : Nat) : Bool × GateState :=
  match st.last_content_emit with
  | some (last_bufnr, last_emit) =>
    if last_bufnr = bufnr ∧ now - last_emit < g.content_window then
      (false, st)
    else
      (true, { st with last_content_emit := some (bufnr, now) })
  | none => (true, { st with last_content_emit := some (bufnr, now) })

/-- `AutocmdGate::allow_cursor_emit` (src/plugin/autocmd.rs lines 43-67). -/
def allow_cursor_emit (g : AutocmdGate) (st : GateState) (bufnr : Int)
    (line : Nat) (now : Nat) : Bool × GateState :=
  let dup : Bool :=
    match st.last_cursor_emit with
    | some (last_bufnr, _, last_line) => last_bufnr = bufnr ∧ last_line = line
    | none => false
  if dup then (false, st)
  else
    let allow_time : Bool :=
      match st.last_cursor_emit with
      | some (last_bufnr, last_emit, _) =>
        if last_bufnr = bufnr then decide (g.cursor_window ≤ now - last_emit)
        else true
      | none => true
    if allow_time then
      (true, { st with last_cursor_emit := some (bufnr, now, line) })
    else (false, st)

/-- `AutocmdGate::clear_buffer` (src/plugin/autocmd.rs lines 69-84). -/
def clear_buffer (st : GateState) (bufnr : Int) : GateState :=
  let st₁ :=
    match st.last_content_emit with
    | some (last_bufnr, _) =>
      if last_bufnr = bufnr then { st with last_content_emit := none } else st
    | none => st
  match st₁.last_cursor_emit with
  | some (last_bufnr, _, _) =>
    if last_bufnr = bufnr then { st₁ with last_cursor_emit := none } else st₁
  | none => st₁

/-- The gate built by `MarkdownPlugin::new` from `ServerConfig::default()`
(src/server.rs lines 39-40): content window 100ms, cursor window 24ms. -/
def defaultGate : AutocmdGate := ⟨100, 24⟩

/-- Run a sequence of `allow_content_emit` calls, each `(bufnr, now)`,
threading the gate state; returns the list of boolean outcomes. -/
def runContentCalls (g : AutocmdGate) : GateState → List (Int × Nat) → List Bool
  | _, [] => []
  | st, (b, t) :: rest =>
    let r := allow_content_emit g st b t
    r.1 :: runContentCalls g r.2 rest

/-- Run a sequence of `allow_cursor_emit` calls, each `(bufnr, line, now)`. -/
def runCursorCalls (g : AutocmdGate) : GateState → List (Int × Nat × Nat) → List Bool
  | _, [] => []
  | st, (b, l, t) :: rest =>
    let r := allow_cursor_emit g st b l t
    r.1 :: runCursorCalls g r.2 rest

/-! ### src/protocol.rs: events and responses -/

inductive SessionEndReason
  | Stopped
  | BufferClosed
  | Error
deriving DecidableEq

inductive ServerEvent
  | RenderFull (bufnr : Int) (html : String) (cursor_line : Nat)
  | CursorMove (bufnr : Int) (line : Nat) (col : Nat)
  | SessionEnd (bufnr : Int) (reason : SessionEndReason)
  | Heartbeat (bufnr : Int)
deriving DecidableEq

structure SnapshotResponse where
  bufnr : Int
  html : String
  cursor_line : Nat
  cursor_col : Nat
  filename : String
deriving DecidableEq

/-! ### src/session.rs: the session store -/

inductive LifecycleState
  | Idle
  | Running
  | Paused
  | Stopped
deriving DecidableEq

/-- `BufferSnapshot` (src/session.rs lines 21-29). -/
structure BufferSnapshot where
  bufnr : Int
  changedtick : Nat
  markdown : String
  cursor_line : Nat
  cursor_col : Nat
  source_path : Option String
deriving DecidableEq

/-- `Session` (src/session.rs lines 31-43).  The tokio broadcast sender is
modelled by a hub identifier: events the store sends are tagged with it, so
"publish to this Session's hub" is observable.  `PathBuf` is kept as the
string it was built from. -/
structure Session where
  bufnr : Int
  changedtick : Nat
  content_hash : Nat
  cursor_line : Nat
  cursor_col : Nat
  subscribers : List Nat
  html : String
  source_path : Option String
  state : LifecycleState
  hub : Nat
deriving DecidableEq

/-- `Session::new` (src/session.rs lines 45-61); the fresh broadcast channel
becomes a fresh hub identifier supplied by the store. -/
def Session.new (bufnr : Int) (hub : Nat) : Session :=
  { bufnr := bufnr, changedtick := 0, content_hash := 0, cursor_line := 1,
    cursor_col := 0, subscribers := [], html := "", source_path := none,
    state := LifecycleState.Idle, hub := hub }

/-- `SessionManager` (src/session.rs lines 63-76): the `HashMap<i64, Session>`
becomes an association list with distinct keys, plus a counter giving out
fresh hub identifiers. -/
structure SessionManager where
  sessions : List (Int × Session)
  active_bufnr : Option Int
  next_hub : Nat
deriving DecidableEq

/-- `SessionManager::default()`. -/
def SessionManager.initial : SessionManager := ⟨[], none, 0⟩

/-- An event sent on a broadcast hub: (hub identifier, event). -/
abbrev HubEvent := Nat × ServerEvent

/-- `HashMap::get` on the association list: the value at the first matching
key. -/
def alistFind (l : List (Int × Session)) (k : Int) : Option Session :=
  match l with
  | [] => none
  | (k₂, v) :: rest => if k₂ = k then some v else alistFind rest k

/-- `HashMap::get_mut` followed by a mutation: rewrite the value at the first
matching key, keep everything else. -/
def alistUpdate (l : List (Int × Session)) (k : Int) (f : Session → Session) :
    List (Int × Session) :=
  match l with
  | [] => []
  | (k₂, v) :: rest =>
    if k₂ = k then (k₂, f v) :: rest else (k₂, v) :: alistUpdate rest k f

/-- `HashMap::remove`: drop the entry at the first matching key. -/
def alistRemove (l : List (Int × Session)) (k : Int) : List (Int × Session) :=
  match l with
  | [] => []
  | (k₂, v) :: rest =>
    if k₂ = k then rest else (k₂, v) :: alistRemove rest k

/-- `snapshot_source_path` (src/session.rs lines 351-358). -/
def snapshot_source_path (path : Option String) : Option String :=
  match path with
  | none => none
  | some p =>
    let trimmed := rustTrim p
    if trimmed = "" then none else some trimmed

/-- The field updates shared by `start_session`, `update_content` and
`rerender_content`: all content-derived fields of a session are replaced
from the snapshot. -/
def applySnapshot (snap : BufferSnapshot) (hash : Nat) (rendered : String)
    (s : Session) : Session :=
  { s with changedtick := snap.changedtick, content_hash := hash,
           cursor_line := snap.cursor_line, cursor_col := snap.cursor_col,
           html := rendered,
           source_path := snapshot_source_path snap.source_path }

/-- `SessionManager::start_session` (src/session.rs lines 79-104).
`renderF` stands for `renderer.render` and `hashF` for `content_hash`
(whose std DefaultHasher is external code).  `entry(..).or_insert_with`
reuses the stored session when present, else inserts a fresh one with a
fresh hub. -/
def start_session (renderF : String → String) (hashF : String → Nat)
    (snap : BufferSnapshot) (st : SessionManager) :
    SessionManager × List HubEvent :=
  let rendered := renderF snap.markdown
  let h := hashF snap.markdown
  let ev := fun (s : Session) =>
    (s.hub, ServerEvent.RenderFull snap.bufnr rendered snap.cursor_line)
  match alistFind st.sessions snap.bufnr with
  | some s =>
    let s' := { applySnapshot snap h rendered s with state := LifecycleState.Running }
    ({ sessions := alistUpdate st.sessions snap.bufnr (fun _ => s'),
       active_bufnr := some snap.bufnr, next_hub := st.next_hub }, [ev s'])
  | none =>
    let s' := { applySnapshot snap h rendered (Session.new snap.bufnr st.next_hub)
                with state := LifecycleState.Running }
    ({ sessions := st.sessions ++ [(snap.bufnr, s')],
       active_bufnr := some snap.bufnr, next_hub := st.next_hub + 1 }, [ev s'])

/-- `SessionManager::stop_session` (src/session.rs lines 106-128): remove the
session (false when absent), send `SessionEnd` on its hub, clear the active
pointer when it referenced this buffer.  The `session.state = Stopped`
write happens on the removed value, outside the map. -/
def stop_session (bufnr : Int) (reason : SessionEndReason)
    (st : SessionManager) : Bool × SessionManager × List HubEvent :=
  match alistFind st.sessions bufnr with
  | none => (false, st, [])
  | some s =>
    let active' := if st.active_bufnr = some bufnr then none else st.active_bufnr
    (true,
     { sessions := alistRemove st.sessions bufnr, active_bufnr := active',
       next_hub := st.next_hub },
     [(s.hub, ServerEvent.SessionEnd bufnr reason)])

/-- `SessionManager::stop_all` (src/session.rs lines 130-144). -/
def stop_all (reason : SessionEndReason) (st : SessionManager) :
    SessionManager × List HubEvent :=
  (⟨[], none, st.next_hub⟩,
   st.sessions.map (fun p => (p.2.hub, ServerEvent.SessionEnd p.1 reason)))

/-- `SessionManager::pause_session` (src/session.rs lines 146-151). -/
def pause_session (bufnr : Int) (st : SessionManager) : SessionManager :=
  { st with sessions :=
      alistUpdate st.sessions bufnr (fun s => { s with state := LifecycleState.Paused }) }

/-- `SessionManager::resume_session` (src/session.rs lines 153-161); note the
active pointer is set unconditionally. -/
def resume_session (bufnr : Int) (st : SessionManager) : SessionManager :=
  { sessions :=
      alistUpdate st.sessions bufnr (fun s => { s with state := LifecycleState.Running }),
    active_bufnr := some bufnr, next_hub := st.next_hub }

/-- `SessionManager::update_content` (src/session.rs lines 163-205).  The
optimistic check under the read lock and its revalidation under the write
lock collapse to one check under the sequential (linearized) semantics
modelled here. -/
def update_content (renderF : String → String) (hashF : String → Nat)
    (snap : BufferSnapshot) (st : SessionManager) :
    Bool × SessionManager × List HubEvent :=
  let new_hash := hashF snap.markdown
  match alistFind st.sessions snap.bufnr with
  | none => (false, st, [])
  | some s =>
    if s.changedtick = snap.changedtick ∧ s.content_hash = new_hash then
      (false, st, [])
    else
      let rendered := renderF snap.markdown
      let s' := applySnapshot snap new_hash rendered s
      (true,
       { st with sessions := alistUpdate st.sessions snap.bufnr (fun _ => s') },
       [(s'.hub, ServerEvent.RenderFull snap.bufnr rendered snap.cursor_line)])

/-- `SessionManager::rerender_content` (src/session.rs lines 207-234):
unconditional re-render and publish. -/
def rerender_content (renderF : String → String) (hashF : String → Nat)
    (snap : BufferSnapshot) (st : SessionManager) :
    Bool × SessionManager × List HubEvent :=
  let rendered := renderF snap.markdown
  let new_hash := hashF snap.markdown
  match alistFind st.sessions snap.bufnr with
  | none => (false, st, [])
  | some s =>
    let s' := applySnapshot snap new_hash rendered s
    (true,
     { st with sessions := alistUpdate st.sessions snap.bufnr (fun _ => s') },
     [(s'.hub, ServerEvent.RenderFull snap.bufnr rendered snap.cursor_line)])

/-- `SessionManager::update_cursor` (src/session.rs lines 236-253). -/
def update_cursor (bufnr : Int) (line col : Nat) (st : SessionManager) :
    Bool × SessionManager × List HubEvent :=
  match alistFind st.sessions bufnr with
  | none => (false, st, [])
  | some s =>
    if s.cursor_line = line ∧ s.cursor_col = col then (false, st, [])
    else
      let s' := { s with cursor_line := line, cursor_col := col }
      (true,
       { st with sessions := alistUpdate st.sessions bufnr (fun _ => s') },
       [(s'.hub, ServerEvent.CursorMove bufnr line col)])

/-- `SessionManager::has_session` (src/session.rs lines 255-258). -/
def has_session (bufnr : Int) (st : SessionManager) : Bool :=
  (alistFind st.sessions bufnr).isSome

/-- `Path::file_name` on the stored source path: the last normal component
(components drops empty and `.` parts; a trailing `..` has no file name). -/
def pathFileName (p : String) : Option String :=
  let comps := (p.splitOn "/").filter (fun c => c ≠ "" ∧ c ≠ ".")
  match comps.getLast? with
  | none => none
  | some c => if c = ".." then none else some c

/-- `SessionManager::snapshot` (src/session.rs lines 260-281). -/
def snapshot (bufnr : Int) (st : SessionManager) : Option SnapshotResponse :=
  match alistFind st.sessions bufnr with
  | none => none
  | some s =>
    if s.state = LifecycleState.Stopped then none
    else
      some { bufnr := s.bufnr, html := s.html, cursor_line := s.cursor_line,
             cursor_col := s.cursor_col,
             filename := ((s.source_path.bind pathFileName).getD "buffer") }

/-- `HashSet::insert` on the subscriber set. -/
def insertClient (c : Nat) (l : List Nat) : List Nat :=
  if c ∈ l then l else l ++ [c]

/-- `SessionManager::subscribe` (src/session.rs lines 314-327): `none` when
no live session; otherwise record the client and hand out a receiver for
the session's hub (modelled by the hub identifier). -/
def subscribe (bufnr : Int) (client : Nat) (st : SessionManager) :
    Option Nat × SessionManager :=
  match alistFind st.sessions bufnr with
  | none => (none, st)
  | some s =>
    if s.state = LifecycleState.Stopped then (none, st)
    else
      (some s.hub,
       { st with sessions := (alistUpdate st.sessions bufnr
           (fun s₂ => { s₂ with subscribers := insertClient client s₂.subscribers })) })

/-- `SessionManager::unsubscribe` (src/session.rs lines 329-334). -/
def unsubscribe (bufnr : Int) (client : Nat) (st : SessionManager) :
    SessionManager :=
  { st with sessions := (alistUpdate st.sessions bufnr
      (fun s => { s with subscribers := s.subscribers.filter (· ≠ client) })) }

/-- `SessionManager::session_count` (src/session.rs lines 336-338). -/
def session_count (st : SessionManager) : Nat := st.sessions.length

/-- The states a `SessionManager` can reach through its public operations,
starting from `SessionManager::default()`. -/
inductive Reachable : SessionManager → Prop
  | init : Reachable SessionManager.initial
  | start (renderF : String → String) (hashF : String → Nat)
      (snap : BufferSnapshot) (st : SessionManager) :
      Reachable st → Reachable (start_session renderF hashF snap st).1
  | stop (bufnr : Int) (reason : SessionEndReason) (st : SessionManager) :
      Reachable st → Reachable (stop_session bufnr reason st).2.1
  | stopAll (reason : SessionEndReason) (st : SessionManager) :
      Reachable st → Reachable (stop_all reason st).1
  | pause (bufnr : Int) (st : SessionManager) :
      Reachable st → Reachable (pause_session bufnr st)
  | resume (bufnr : Int) (st : SessionManager) :
      Reachable st → Reachable (resume_session bufnr st)
  | update (renderF : String → String) (hashF : String → Nat)
      (snap : BufferSnapshot) (st : SessionManager) :
      Reachable st → Reachable (update_content renderF hashF snap st).2.1
  | rerender (renderF : String → String) (hashF : String → Nat)
      (snap : BufferSnapshot) (st : SessionManager) :
      Reachable st → Reachable (rerender_content renderF hashF snap st).2.1
  | cursor (bufnr : Int) (line col : Nat) (st : SessionManager) :
      Reachable st → Reachable (update_cursor bufnr line col st).2.1
  | sub (bufnr : Int) (client : Nat) (st : SessionManager) :
      Reachable st → Reachable (subscribe bufnr client st).2
  | unsub (bufnr : Int) (client : Nat) (st : SessionManager) :
      Reachable st → Reachable (unsubscribe bufnr client st)

/-! ### src/render.rs: the markdown renderer

pulldown_cmark is external code: its parse of a markdown text is a
parameter, given as the list of `(event, range.start)` pairs the offset
iterator yields.  The renderer below is the fold src/render.rs performs
over that stream.  Besides the output string, the embedding records (in
emission order) every numeric `data-line` marker value it writes, so the
marker sequence of the output is directly observable. -/

inductive HeadingLevel
  | H1
  | H2
  | H3
  | H4
  | H5
  | H6
deriving DecidableEq

inductive BlockQuoteKind
  | Note
  | Tip
  | Important
  | Warning
  | Caution
deriving DecidableEq

inductive CodeBlockKind
  | Indented
  | Fenced (lang : String)
deriving DecidableEq

inductive MetadataBlockKind
  | YamlStyle
  | PlusesStyle
deriving DecidableEq

/-- The pulldown_cmark `Tag` fields src/render.rs reads (ignored fields such
as heading classes or link types are dropped). -/
inductive Tag
  | Paragraph
  | Heading (level : HeadingLevel) (id : Option String)
  | BlockQuote (kind : Option BlockQuoteKind)
  | CodeBlock (kind : CodeBlockKind)
  | BulletList
  | OrderedList (start : Nat)
  | DefinitionList
  | DefinitionListTitle
  | DefinitionListDefinition
  | Item
  | Emphasis
  | Superscript
  | Subscript
  | Strong
  | Strikethrough
  | Link (dest_url : String) (title : String)
  | Image (dest_url : String) (title : String)
  | HtmlBlock
  | FootnoteDefinition (label : String)
  | MetadataBlock (kind : MetadataBlockKind)
  | Table
  | TableHead
  | TableRow
  | TableCell
deriving DecidableEq

/-- The pulldown_cmark `TagEnd` cases. -/
inductive TagEnd
  | Paragraph
  | Heading (level : HeadingLevel)
  | BlockQuote
  | CodeBlock
  | HtmlBlock
  | ListEnd (ordered : Bool)
  | Item
  | FootnoteDefinition
  | DefinitionList
  | DefinitionListTitle
  | DefinitionListDefinition
  | Table
  | TableHead
  | TableRow
  | TableCell
  | Emphasis
  | Strong
  | Strikethrough
  | Superscript
  | Subscript
  | Link
  | Image
  | MetadataBlock
deriving DecidableEq

/-- The pulldown_cmark `Event` cases. -/
inductive Event
  | Start (tag : Tag)
  | End (tag : TagEnd)
  | Text (s : String)
  | Code (s : String)
  | InlineMath (s : String)
  | DisplayMath (s : String)
  | Html (s : String)
  | InlineHtml (s : String)
  | FootnoteReference (s : String)
  | SoftBreak
  | HardBreak
  | Rule
  | TaskListMarker (checked : Bool)
deriving DecidableEq

/-- `push_escaped_html` (src/render.rs lines 664-675) on one character. -/
def escapeChar (c : Char) : String :=
  if c = '&' then "&amp;"
  else if c = '<' then "&lt;"
  else if c = '>' then "&gt;"
  else if c = '"' then "&quot;"
  else if c = '\'' then "&#39;"
  else String.singleton c

/-- `push_escaped_html`: append the escaped text to `out`. -/
def push_escaped_html (out : String) (text : String) : String :=
  text.data.foldl (fun acc c => acc ++ escapeChar c) out

/-- `push_escaped_attr` (src/render.rs lines 677-679) delegates to
`push_escaped_html`. -/
def push_escaped_attr (out : String) (text : String) : String :=
  push_escaped_html out text

/-- `heading_level_number` (src/render.rs lines 653-662). -/
def heading_level_number (level : HeadingLevel) : Nat :=
  match level with
  | HeadingLevel.H1 => 1
  | HeadingLevel.H2 => 2
  | HeadingLevel.H3 => 3
  | HeadingLevel.H4 => 4
  | HeadingLevel.H5 => 5
  | HeadingLevel.H6 => 6

/-- `block_quote_kind_name` (src/render.rs lines 564-572). -/
def block_quote_kind_name (kind : BlockQuoteKind) : String :=
  match kind with
  | BlockQuoteKind.Note => "note"
  | BlockQuoteKind.Tip => "tip"
  | BlockQuoteKind.Important => "important"
  | BlockQuoteKind.Warning => "warning"
  | BlockQuoteKind.Caution => "caution"

/-- `block_quote_kind_title` (src/render.rs lines 574-582). -/
def block_quote_kind_title (kind : BlockQuoteKind) : String :=
  match kind with
  | BlockQuoteKind.Note => "Note"
  | BlockQuoteKind.Tip => "Tip"
  | BlockQuoteKind.Important => "Important"
  | BlockQuoteKind.Warning => "Warning"
  | BlockQuoteKind.Caution => "Caution"

/-- `block_quote_kind_icon_path` (src/render.rs lines 584-602): the SVG path
data per alert kind.  The exact path strings do not matter to any claim;
they are kept abstract as a named constant per kind to keep the output
byte-for-byte structured like the source (a fixed literal per kind). -/
def block_quote_kind_icon_path (kind : BlockQuoteKind) : String :=
  match kind with
  | BlockQuoteKind.Note => "M0 8a8 8 0 1 1 16 0A8 8 0 0 1 0 8Zm8-6.5a6.5 6.5 0 1 0 0 13 6.5 6.5 0 0 0 0-13ZM6.5 7.75A.75.75 0 0 1 7.25 7h1a.75.75 0 0 1 .75.75v2.75h.25a.75.75 0 0 1 0 1.5h-2a.75.75 0 0 1 0-1.5h.25v-2h-.25a.75.75 0 0 1-.75-.75ZM8 6a1 1 0 1 1 0-2 1 1 0 0 1 0 2Z"
  | BlockQuoteKind.Tip => "M8 1.5c-2.363 0-4 1.69-4 3.75 0 .984.424 1.625.984 2.304l.214.253c.223.264.47.556.673.848.284.411.537.896.621 1.49a.75.75 0 0 1-1.484.211c-.04-.282-.163-.547-.37-.847a8.456 8.456 0 0 0-.542-.68c-.084-.1-.173-.205-.268-.32C3.201 7.75 2.5 6.766 2.5 5.25 2.5 2.31 4.863 0 8 0s5.5 2.31 5.5 5.25c0 1.516-.701 2.5-1.328 3.259-.095.115-.184.22-.268.319-.207.245-.383.453-.541.681-.208.3-.33.565-.37.847a.751.751 0 0 1-1.485-.212c.084-.593.337-1.078.621-1.489.203-.292.45-.584.673-.848.075-.088.147-.173.213-.253.561-.679.985-1.32.985-2.304 0-2.06-1.637-3.75-4-3.75ZM5.75 12h4.5a.75.75 0 0 1 0 1.5h-4.5a.75.75 0 0 1 0-1.5ZM6 15.25a.75.75 0 0 1 .75-.75h2.5a.75.75 0 0 1 0 1.5h-2.5a.75.75 0 0 1-.75-.75Z"
  | BlockQuoteKind.Important => "M0 1.75C0 .784.784 0 1.75 0h12.5C15.216 0 16 .784 16 1.75v9.5A1.75 1.75 0 0 1 14.25 13H8.06l-2.573 2.573A1.458 1.458 0 0 1 3 14.543V13H1.75A1.75 1.75 0 0 1 0 11.25Zm1.75-.25a.25.25 0 0 0-.25.25v9.5c0 .138.112.25.25.25h2a.75.75 0 0 1 .75.75v2.19l2.72-2.72a.749.749 0 0 1 .53-.22h6.5a.25.25 0 0 0 .25-.25v-9.5a.25.25 0 0 0-.25-.25Zm7 2.25v2.5a.75.75 0 0 1-1.5 0v-2.5a.75.75 0 0 1 1.5 0ZM9 9a1 1 0 1 1-2 0 1 1 0 0 1 2 0Z"
  | BlockQuoteKind.Warning => "M6.457 1.047c.659-1.234 2.427-1.234 3.086 0l6.082 11.378A1.75 1.75 0 0 1 14.082 15H1.918a1.75 1.75 0 0 1-1.543-2.575Zm1.763.707a.25.25 0 0 0-.44 0L1.698 13.132a.25.25 0 0 0 .22.368h12.164a.25.25 0 0 0 .22-.368Zm.53 3.996v2.5a.75.75 0 0 1-1.5 0v-2.5a.75.75 0 0 1 1.5 0ZM9 11a1 1 0 1 1-2 0 1 1 0 0 1 2 0Z"
  | BlockQuoteKind.Caution => "M4.47.22A.749.749 0 0 1 5 0h6c.199 0 .389.079.53.22l4.25 4.25c.141.14.22.331.22.53v6a.749.749 0 0 1-.22.53l-4.25 4.25A.749.749 0 0 1 11 16H5a.749.749 0 0 1-.53-.22L.22 11.53A.749.749 0 0 1 0 11V5c0-.199.079-.389.22-.53Zm.84 1.28L1.5 5.31v5.38l3.81 3.81h5.38l3.81-3.81V5.31L10.69 1.5ZM8 4a.75.75 0 0 1 .75.75v3.5a.75.75 0 0 1-1.5 0v-3.5A.75.75 0 0 1 8 4Zm0 8a1 1 0 1 1 0-2 1 1 0 0 1 0 2Z"

/-- `render_alert_title` (src/render.rs lines 604-610). -/
def render_alert_title (out : String) (kind : BlockQuoteKind) : String :=
  out ++ "<p class=\"markdown-alert-title\"><svg class=\"octicon markdown-alert-icon\" viewBox=\"0 0 16 16\" width=\"16\" height=\"16\" aria-hidden=\"true\"><path d=\"" ++
    block_quote_kind_icon_path kind ++ "\"></path></svg>" ++
    block_quote_kind_title kind ++ "</p>"

/-- `metadata_block_kind_name` (src/render.rs lines 612-617). -/
def metadata_block_kind_name (kind : MetadataBlockKind) : String :=
  match kind with
  | MetadataBlockKind.YamlStyle => "yaml"
  | MetadataBlockKind.PlusesStyle => "pluses"

/-- `line_start_indices` (src/render.rs lines 326-335): byte index 0 plus
the byte index after every newline byte. -/
def lineStartsAux : List UInt8 → Nat → List Nat
  | [], _ => []
  | b :: rest, idx =>
    if b = 10 then (idx + 1) :: lineStartsAux rest (idx + 1)
    else lineStartsAux rest (idx + 1)

def line_start_indices (markdown : String) : List Nat :=
  0 :: lineStartsAux markdown.toUTF8.toList 0

/-- `line_for_offset` (src/render.rs lines 337-343).  The source binary
searches the strictly increasing `starts` list: a hit at index `i` gives
`i + 1`, a miss with insertion point 0 gives 1, a miss with insertion point
`i > 0` gives `i`.  On a strictly increasing list both cases equal
`max 1 (number of entries ≤ offset)`, which is how it is written here. -/
def line_for_offset (offset : Nat) (starts : List Nat) : Nat :=
  max 1 (starts.countP (fun s => decide (s ≤ offset)))

/-- The renderer loop state: the output built so far, the `data-line` values
written so far (instrumentation: exactly one entry is appended per
`data-line=".."` the source writes), and the mutable locals of
`MarkdownRenderer::render` (src/render.rs lines 30-33). -/
structure RenderState where
  output : String
  markers : List Nat
  last_line : Nat
  heading_index : Nat
  image_titles : List (Option String)
  in_table_head : Bool
deriving DecidableEq

/-- `open_block_tag` (src/render.rs lines 318-324), also recording the
marker it writes. -/
def open_block_tag (st : RenderState) (tag : String) (line : Nat) : RenderState :=
  { st with
    output := st.output ++ "<" ++ tag ++ " data-line=\"" ++ toString line ++ "\">",
    markers := st.markers ++ [line] }

/-- `render_start_tag` (src/render.rs lines 101-244). -/
def render_start_tag (heading_ids : List String) (st : RenderState)
    (tag : Tag) (line : Nat) : RenderState :=
  match tag with
  | Tag.Paragraph => open_block_tag st "p" line
  | Tag.Heading level id =>
    let _ := id
    let lvl := heading_level_number level
    let out := st.output ++ "<h" ++ toString lvl ++ " data-line=\"" ++
      toString line ++ "\""
    let out :=
      match heading_ids.get? st.heading_index with
      | some heading_id => push_escaped_attr (out ++ " id=\"") heading_id ++ "\""
      | none => out
    { st with output := out ++ ">", markers := st.markers ++ [line],
              heading_index := st.heading_index + 1 }
  | Tag.BlockQuote kind =>
    let out := st.output ++ "<blockquote data-line=\"" ++ toString line ++ "\""
    let out :=
      match kind with
      | some k =>
        let kind_name := block_quote_kind_name k
        render_alert_title
          (out ++ " data-alert=\"" ++ kind_name ++
            "\" class=\"markdown-alert markdown-alert-" ++ kind_name ++ "\">") k
      | none => out ++ ">"
    { st with output := out, markers := st.markers ++ [line] }
  | Tag.CodeBlock kind =>
    let out := st.output ++ "<pre data-line=\"" ++ toString line ++ "\"><code"
    let out :=
      match kind with
      | CodeBlockKind.Fenced lang =>
        let trimmed := rustTrim lang
        if trimmed = "" then out
        else push_escaped_attr (out ++ " class=\"language-") trimmed ++ "\""
      | CodeBlockKind.Indented => out
    { st with output := out ++ ">", markers := st.markers ++ [line] }
  | Tag.OrderedList start =>
    { st with output := st.output ++ "<ol start=\"" ++ toString start ++ "\">" }
  | Tag.BulletList => { st with output := st.output ++ "<ul>" }
  | Tag.DefinitionList => { st with output := st.output ++ "<dl>" }
  | Tag.DefinitionListTitle => open_block_tag st "dt" line
  | Tag.DefinitionListDefinition => open_block_tag st "dd" line
  | Tag.Item => open_block_tag st "li" line
  | Tag.Emphasis => { st with output := st.output ++ "<em>" }
  | Tag.Superscript => { st with output := st.output ++ "<sup>" }
  | Tag.Subscript => { st with output := st.output ++ "<sub>" }
  | Tag.Strong => { st with output := st.output ++ "<strong>" }
  | Tag.Strikethrough => { st with output := st.output ++ "<del>" }
  | Tag.Link dest_url title =>
    let out := push_escaped_attr (st.output ++ "<a href=\"") (sanitize_url dest_url) ++ "\""
    let out :=
      if title = "" then out
      else push_escaped_attr (out ++ " title=\"") title ++ "\""
    { st with output := out ++ ">" }
  | Tag.Image dest_url title =>
    let out := push_escaped_attr (st.output ++ "<img src=\"")
      (sanitize_image_url dest_url) ++ "\" alt=\""
    { st with output := out,
              image_titles := (if title = "" then none else some title) :: st.image_titles }
  | Tag.HtmlBlock =>
    { st with
      output := (st.output ++ "<pre data-line=\"" ++ toString line ++
        "\" class=\"html-block\">"),
      markers := st.markers ++ [line] }
  | Tag.FootnoteDefinition label =>
    { st with
      output := (push_escaped_attr (st.output ++ "<section data-line=\"" ++
        toString line ++ "\" class=\"footnote\" data-footnote=\"") label ++ "\">"),
      markers := st.markers ++ [line] }
  | Tag.MetadataBlock kind =>
    { st with
      output := (st.output ++ "<pre data-line=\"" ++ toString line ++
        "\" class=\"metadata-block metadata-" ++ metadata_block_kind_name kind ++ "\">"),
      markers := st.markers ++ [line] }
  | Tag.Table => open_block_tag st "table" line
  | Tag.TableHead =>
    { st with output := st.output ++ "<thead>", in_table_head := true }
  | Tag.TableRow => { st with output := st.output ++ "<tr>" }
  | Tag.TableCell =>
    { st with output := st.output ++ (if st.in_table_head then "<th>" else "<td>") }

/-- `render_end_tag` (src/render.rs lines 246-287). -/
def render_end_tag (st : RenderState) (tag : TagEnd) : RenderState :=
  match tag with
  | TagEnd.Paragraph => { st with output := st.output ++ "</p>" }
  | TagEnd.Heading level =>
    { st with output := st.output ++ "</h" ++ toString (heading_level_number level) ++ ">" }
  | TagEnd.BlockQuote => { st with output := st.output ++ "</blockquote>" }
  | TagEnd.CodeBlock => { st with output := st.output ++ "</code></pre>" }
  | TagEnd.HtmlBlock => { st with output := st.output ++ "</pre>" }
  | TagEnd.ListEnd true => { st with output := st.output ++ "</ol>" }
  | TagEnd.ListEnd false => { st with output := st.output ++ "</ul>" }
  | TagEnd.Item => { st with output := st.output ++ "</li>" }
  | TagEnd.FootnoteDefinition => { st with output := st.output ++ "</section>" }
  | TagEnd.DefinitionList => { st with output := st.output ++ "</dl>" }
  | TagEnd.DefinitionListTitle => { st with output := st.output ++ "</dt>" }
  | TagEnd.DefinitionListDefinition => { st with output := st.output ++ "</dd>" }
  | TagEnd.Table => { st with output := st.output ++ "</table>" }
  | TagEnd.TableHead =>
    { st with output := st.output ++ "</thead>", in_table_head := false }
  | TagEnd.TableRow => { st with output := st.output ++ "</tr>" }
  | TagEnd.TableCell =>
    { st with output := st.output ++ (if st.in_table_head then "</th>" else "</td>") }
  | TagEnd.Emphasis => { st with output := st.output ++ "</em>" }
  | TagEnd.Strong => { st with output := st.output ++ "</strong>" }
  | TagEnd.Strikethrough => { st with output := st.output ++ "</del>" }
  | TagEnd.Superscript => { st with output := st.output ++ "</sup>" }
  | TagEnd.Subscript => { st with output := st.output ++ "</sub>" }
  | TagEnd.Link => { st with output := st.output ++ "</a>" }
  | TagEnd.Image => st
  | TagEnd.MetadataBlock => { st with output := st.output ++ "</pre>" }

/-- `render_image_alt_event` (src/render.rs lines 289-316): while inside an
image tag, events feed the alt attribute (the `Vec` of pending titles is
used as a stack: push/pop at the same end). -/
def render_image_alt_event (st : RenderState) (ev : Event) : RenderState :=
  match ev with
  | Event.End TagEnd.Image =>
    let out := st.output ++ "\""
    let out :=
      match st.image_titles.head? with
      | some (some title) => push_escaped_attr (out ++ " title=\"") title ++ "\""
      | _ => out
    { st with output := out ++ " />", image_titles := st.image_titles.tail }
  | Event.Text t => { st with output := push_escaped_attr st.output t }
  | Event.Code t => { st with output := push_escaped_attr st.output t }
  | Event.Html t => { st with output := push_escaped_attr st.output t }
  | Event.InlineHtml t => { st with output := push_escaped_attr st.output t }
  | Event.InlineMath t => { st with output := push_escaped_attr st.output t }
  | Event.DisplayMath t => { st with output := push_escaped_attr st.output t }
  | Event.FootnoteReference t => { st with output := push_escaped_attr st.output t }
  | Event.SoftBreak => { st with output := st.output ++ " " }
  | Event.HardBreak => { st with output := st.output ++ " " }
  | _ => st

/-- One iteration of the `for (event, range)` loop of
`MarkdownRenderer::render` (src/render.rs lines 35-94). -/
def renderStep (heading_ids : List String) (starts : List Nat)
    (st : RenderState) (ev : Event) (offset : Nat) : RenderState :=
  let computed := line_for_offset offset starts
  let line := if computed < st.last_line then st.last_line else computed
  let st := { st with last_line := line }
  if st.image_titles ≠ [] then render_image_alt_event st ev
  else
    match ev with
    | Event.Start tag => render_start_tag heading_ids st tag line
    | Event.End tag => render_end_tag st tag
    | Event.Text t => { st with output := push_escaped_html st.output t }
    | Event.Code t =>
      { st with output := push_escaped_html (st.output ++ "<code>") t ++ "</code>" }
    | Event.InlineMath m =>
      { st with output :=
          push_escaped_html (st.output ++ "<span class=\"math-inline\">") m ++ "</span>" }
    | Event.DisplayMath m =>
      { st with output :=
          push_escaped_html (st.output ++ "<div class=\"math-display\">") m ++ "</div>" }
    | Event.Html raw => { st with output := push_escaped_html st.output raw }
    | Event.InlineHtml raw => { st with output := push_escaped_html st.output raw }
    | Event.FootnoteReference label =>
      { st with output := push_escaped_html (st.output ++ "<sup>") label ++ "</sup>" }
    | Event.SoftBreak => { st with output := st.output ++ "\n" }
    | Event.HardBreak => { st with output := st.output ++ "<br />\n" }
    | Event.Rule => { st with output := st.output ++ "<hr />" }
    | Event.TaskListMarker checked =>
      { st with output := st.output ++
          (if checked then "<input type=\"checkbox\" checked disabled /> "
           else "<input type=\"checkbox\" disabled /> ") }

/-- The full event loop. -/
def renderLoop (heading_ids : List String) (starts : List Nat) :
    RenderState → List (Event × Nat) → RenderState
  | st, [] => st
  | st, (ev, off) :: rest =>
    renderLoop heading_ids starts (renderStep heading_ids starts st ev off) rest

/-- The loop state at entry to `render` (src/render.rs lines 23-33): the
root container is open, no markers yet, `last_line = 1`. -/
def initialRenderState : RenderState :=
  { output := "<article id=\"md-root\">", markers := [], last_line := 1,
    heading_index := 0, image_titles := [], in_table_head := false }

/-! ### Decimal printing is injective

`unique_heading_id` (src/render.rs lines 543-562) loops over candidates
`base-1`, `base-2`, ... until one is free.  Its termination rests on distinct
suffixes giving distinct candidate strings, i.e. on `Nat.toString` being
injective; the lemmas here establish that by relating the core printing
routine `Nat.toDigitsCore` to `Nat.digits`. -/

theorem digitChar_inj_below_ten :
    ∀ a ∈ List.range 10, ∀ b ∈ List.range 10,
      Nat.digitChar a = Nat.digitChar b → a = b := by decide

theorem map_digitChar_inj (l₁ : List Nat) :
    ∀ l₂ : List Nat, (∀ x ∈ l₁, x < 10) → (∀ x ∈ l₂, x < 10) →
      l₁.map Nat.digitChar = l₂.map Nat.digitChar → l₁ = l₂ := by
  induction l₁ with
  | nil => intro l₂ _ _ h; cases l₂ <;> simp_all
  | cons a l ih =>
    intro l₂ h₁ h₂ h
    cases l₂ with
    | nil => simp_all
    | cons b l₂ =>
      simp only [List.map_cons, List.cons.injEq] at h
      have ha : a ∈ List.range 10 := List.mem_range.mpr (h₁ a (by simp))
      have hb : b ∈ List.range 10 := List.mem_range.mpr (h₂ b (by simp))
      have := digitChar_inj_below_ten a ha b hb h.1
      subst this
      simp only [List.cons.injEq, true_and]
      exact ih l₂ (fun x hx => h₁ x (by simp [hx])) (fun x hx => h₂ x (by simp [hx])) h.2

theorem toDigitsCore_ten (fuel : Nat) :
    ∀ (n : Nat) (acc : List Char), 0 < n → n < fuel →
      Nat.toDigitsCore 10 fuel n acc =
        ((Nat.digits 10 n).map Nat.digitChar).reverse ++ acc := by
  induction fuel with
  | zero => intro n acc _ h; omega
  | succ f ih =>
    intro n acc hn hf
    rw [Nat.toDigitsCore]
    by_cases h : n / 10 = 0
    · rw [if_pos h, Nat.digits_def' (by norm_num) hn, h]
      simp
    · rw [if_neg h]
      have hlt : n / 10 < f := by
        have := Nat.div_lt_self hn (by norm_num : 1 < 10)
        omega
      rw [ih (n / 10) _ (Nat.pos_of_ne_zero h) hlt,
        Nat.digits_def' (by norm_num) hn]
      simp

theorem natRepr_pos (n : Nat) (hn : 0 < n) :
    Nat.repr n = (((Nat.digits 10 n).map Nat.digitChar).reverse).asString := by
  rw [Nat.repr, Nat.toDigits, toDigitsCore_ten (n + 1) n [] hn (Nat.lt_succ_self n)]
  simp

theorem asString_inj {l₁ l₂ : List Char} (h : l₁.asString = l₂.asString) :
    l₁ = l₂ := by
  have := congrArg String.data h
  simpa [List.asString] using this

theorem natRepr_pos_ne_repr_zero (n : Nat) (hn : 0 < n) :
    Nat.repr n ≠ Nat.repr 0 := by
  intro h
  rw [natRepr_pos n hn] at h
  have h0 : Nat.repr 0 = List.asString ['0'] := by decide
  rw [h0] at h
  have hd := asString_inj h
  rcases hlist : Nat.digits 10 n with _ | ⟨d, ds⟩
  · exact absurd hlist (Nat.digits_ne_nil_iff_ne_zero.mpr (by omega))
  · rw [hlist] at hd
    rcases ds with _ | ⟨d₂, ds⟩
    · simp only [List.map_cons, List.map_nil, List.reverse_cons, List.reverse_nil,
        List.nil_append, List.cons.injEq, and_true] at hd
      have hd10 : d < 10 :=
        Nat.digits_lt_base (by norm_num) (by rw [hlist]; simp)
      have hzero : d = 0 :=
        digitChar_inj_below_ten d (List.mem_range.mpr hd10) 0 (by decide)
          (by simpa [Nat.digitChar] using hd)
      have hn0 := congrArg (Nat.ofDigits 10) hlist
      rw [Nat.ofDigits_digits, hzero] at hn0
      simp [Nat.ofDigits] at hn0
      omega
    · have hlen := congrArg List.length hd
      simp at hlen

theorem natRepr_injective : Function.Injective Nat.repr := by
  intro m n h
  rcases Nat.eq_zero_or_pos m with hm | hm <;> rcases Nat.eq_zero_or_pos n with hn | hn
  · omega
  · subst hm; exact absurd h.symm (natRepr_pos_ne_repr_zero n hn)
  · subst hn; exact absurd h (natRepr_pos_ne_repr_zero m hm)
  · rw [natRepr_pos m hm, natRepr_pos n hn] at h
    have hd := asString_inj h
    have hrev := List.reverse_injective hd
    have hdig : Nat.digits 10 m = Nat.digits 10 n :=
      map_digitChar_inj _ _ (fun x hx => Nat.digits_lt_base (by norm_num) hx)
        (fun x hx => Nat.digits_lt_base (by norm_num) hx) hrev
    have := congrArg (Nat.ofDigits 10) hdig
    rwa [Nat.ofDigits_digits, Nat.ofDigits_digits] at this

theorem natToString_injective : Function.Injective (toString : Nat → String) :=
  natRepr_injective

/-! ### src/render.rs: heading identifiers -/

/-- `HashMap::get` on a string-keyed association list. -/
def alistLookup {α : Type} (l : List (String × α)) (k : String) : Option α :=
  match l with
  | [] => none
  | (k₂, v) :: rest => if k₂ = k then some v else alistLookup rest k

/-- `HashMap::insert` on a string-keyed association list: replace the value
at the key, or append a new binding. -/
def alistInsert {α : Type} (l : List (String × α)) (k : String) (v : α) :
    List (String × α) :=
  match l with
  | [] => [(k, v)]
  | (k₂, v₂) :: rest =>
    if k₂ = k then (k₂, v) :: rest else (k₂, v₂) :: alistInsert rest k v

/-- `char::is_alphanumeric`.  The full Unicode Alphabetic/Number tables live
in Rust std; the embedding is exact on the ASCII range, which is all the
slug and lookup normalisation claims exercise. -/
def rustIsAlphanumeric (c : Char) : Bool :=
  c.isAlphanum

/-- `char::to_lowercase` pushed one character at a time.  The full Unicode
mapping lives in Rust std; the embedding is exact on the ASCII range. -/
def rustLowerString (c : Char) : String :=
  String.singleton (asciiLowerChar c)

/-- `str::ends_with(' ')`. -/
def endsWithSpace (s : String) : Bool :=
  s.data.getLast? = some ' '

/-- `normalize_heading_id` (src/render.rs lines 506-513). -/
def normalize_heading_id (id : Option String) : Option String :=
  match id with
  | none => none
  | some i =>
    let trimmed := rustTrim i
    if trimmed = "" then none else some trimmed

/-- `slugify_heading` (src/render.rs lines 515-541): the character fold with
its `pending_dash` flag. -/
def slugifyAux : List Char → String → Bool → String
  | [], slug, _ => slug
  | c :: rest, slug, pending_dash =>
    if rustIsAlphanumeric c then
      let slug := if pending_dash ∧ slug ≠ "" then slug ++ "-" else slug
      slugifyAux rest (slug ++ rustLowerString c) false
    else if rustIsWhitespace c ∨ c = '-' ∨ c = '_' then
      slugifyAux rest slug true
    else slugifyAux rest slug pending_dash

def slugify_heading (text : String) : String :=
  let slug := slugifyAux text.data "" false
  if slug = "" then "section" else slug

/-- `normalize_heading_lookup_text` (src/render.rs lines 485-504). -/
def normalizeLookupAux : List Char → String → Bool → String
  | [], out, _ => out
  | c :: rest, out, pending_space =>
    if rustIsAlphanumeric c then
      let out := if pending_space ∧ out ≠ "" then out ++ " " else out
      normalizeLookupAux rest (out ++ rustLowerString c) false
    else normalizeLookupAux rest out true

def normalize_heading_lookup_text (text : String) : String :=
  normalizeLookupAux text.data "" false

/-- `internal_fragment_id` (src/render.rs lines 475-483). -/
def internal_fragment_id (dest : String) : Option String :=
  let trimmed := rustTrim dest
  match trimmed.data with
  | '#' :: rest =>
    let fragment := rustTrim (String.mk rest)
    if fragment = "" then none else some fragment
  | _ => none

/-- `take_heading_alias` (src/render.rs lines 462-473): pop the front of the
queue registered under the normalised heading text, returning the updated
alias map. -/
def take_heading_alias (aliases : List (String × List String))
    (heading_text : String) : Option String × List (String × List String) :=
  let key := normalize_heading_lookup_text heading_text
  if key = "" then (none, aliases)
  else
    match alistLookup aliases key with
    | none => (none, aliases)
    | some [] => (none, aliases)
    | some (f :: rest) => (some f, alistInsert aliases key rest)

/-- The candidates already taken below `suffix`: the measure for the
collision loop of `unique_heading_id`. -/
def hitCount (base : String) (used : List String) (suffix : Nat) : Nat :=
  ((Finset.range suffix).filter (fun k => base ++ "-" ++ toString k ∈ used)).card

theorem cand_injective (base : String) :
    Function.Injective (fun k : Nat => base ++ "-" ++ toString k) := by
  intro k₁ k₂ h
  simp only at h
  have hd := congrArg String.data h
  simp only [String.data_append] at hd
  have := List.append_cancel_left hd
  exact natToString_injective (by apply congrArg String.mk this)

theorem hitCount_le (base : String) (used : List String) (suffix : Nat) :
    hitCount base used suffix ≤ used.toFinset.card := by
  apply Finset.card_le_card_of_injOn (fun k => base ++ "-" ++ toString k)
  · intro k hk
    simp only [Finset.mem_filter, Finset.mem_range] at hk
    exact List.mem_toFinset.mpr hk.2
  · exact fun a _ b _ h => cand_injective base h

theorem hitCount_succ (base : String) (used : List String) (suffix : Nat)
    (h : base ++ "-" ++ toString suffix ∈ used) :
    hitCount base used (suffix + 1) = hitCount base used suffix + 1 := by
  unfold hitCount
  rw [Finset.range_succ, Finset.filter_insert, if_pos h,
    Finset.card_insert_of_not_mem (by simp)]

/-- The collision loop of `unique_heading_id` (src/render.rs lines 553-561):
try `base-suffix`, `base-(suffix+1)`, ... until one is not yet used; insert
it into the used set and update the suffix counter of `base` to one past
the suffix that succeeded. -/
def uniqueLoop (base : String) (used : List String)
    (next : List (String × Nat)) (suffix : Nat) :
    String × List String × List (String × Nat) :=
  let candidate := base ++ "-" ++ toString suffix
  if h : candidate ∈ used then
    uniqueLoop base used next (suffix + 1)
  else
    (candidate, candidate :: used, alistInsert next base (suffix + 1))
termination_by used.toFinset.card + 1 - hitCount base used suffix
decreasing_by
  have h₁ := hitCount_le base used suffix
  have h₂ := hitCount_succ base used suffix h
  omega

/-- `unique_heading_id` (src/render.rs lines 543-562): returns the assigned
id together with the updated used-id set and per-base suffix counters.
`HashSet::insert` returning true is the not-yet-used branch. -/
def unique_heading_id (base : String) (used : List String)
    (next : List (String × Nat)) : String × List String × List (String × Nat) :=
  if base ∈ used then
    uniqueLoop base used next ((alistLookup next base).getD 1)
  else
    (base, base :: used,
     match alistLookup next base with
     | some _ => next
     | none => alistInsert next base 1)

/-- The state of the `collect_internal_heading_aliases` loop
(src/render.rs lines 406-460). -/
structure AliasState where
  aliases : List (String × List String)
  active_fragment : Option String
  active_text : String
deriving DecidableEq

def aliasStep (st : AliasState) (ev : Event) : AliasState :=
  match ev with
  | Event.Start (Tag.Link dest_url _) =>
    { st with active_fragment := internal_fragment_id dest_url, active_text := "" }
  | Event.End TagEnd.Link =>
    match st.active_fragment with
    | some fragment =>
      let key := normalize_heading_lookup_text st.active_text
      let aliases :=
        if key = "" then st.aliases
        else alistInsert st.aliases key ((alistLookup st.aliases key).getD [] ++ [fragment])
      { aliases := aliases, active_fragment := none, active_text := "" }
    | none => { st with active_text := "" }
  | Event.Text t | Event.Code t | Event.Html t | Event.InlineHtml t
  | Event.InlineMath t | Event.DisplayMath t | Event.FootnoteReference t =>
    if st.active_fragment.isSome then { st with active_text := st.active_text ++ t }
    else st
  | Event.SoftBreak | Event.HardBreak =>
    if st.active_fragment.isSome ∧ ¬ endsWithSpace st.active_text then
      { st with active_text := st.active_text ++ " " }
    else st
  | _ => st

def collect_internal_heading_aliases (events : List Event) :
    List (String × List String) :=
  (events.foldl aliasStep { aliases := [], active_fragment := none, active_text := "" }).aliases

/-- The state of the `collect_heading_ids` loop (src/render.rs lines
345-404). -/
structure HeadingIdState where
  ids : List String
  used_ids : List String
  next_suffixes : List (String × Nat)
  heading_aliases : List (String × List String)
  heading_text : Option String
  explicit_heading_id : Option String
deriving DecidableEq

def headingIdStep (st : HeadingIdState) (ev : Event) : HeadingIdState :=
  match ev with
  | Event.Start (Tag.Heading _ id) =>
    { st with heading_text := some "", explicit_heading_id := normalize_heading_id id }
  | Event.End (TagEnd.Heading _) =>
    let text := (st.heading_text).getD ""
    let br :=
      match st.explicit_heading_id with
      | some explicit => (explicit, st.heading_aliases)
      | none =>
        match take_heading_alias st.heading_aliases text with
        | (some aliasId, aliases) => (aliasId, aliases)
        | (none, aliases) => (slugify_heading text, aliases)
    let r := unique_heading_id br.1 st.used_ids st.next_suffixes
    { ids := st.ids ++ [r.1], used_ids := r.2.1, next_suffixes := r.2.2,
      heading_aliases := br.2, heading_text := none, explicit_heading_id := none }
  | Event.Text t | Event.Code t | Event.Html t | Event.InlineHtml t
  | Event.InlineMath t | Event.DisplayMath t =>
    match st.heading_text with
    | some cur => { st with heading_text := some (cur ++ t) }
    | none => st
  | Event.FootnoteReference t =>
    match st.heading_text with
    | some cur => { st with heading_text := some (cur ++ t) }
    | none => st
  | Event.SoftBreak | Event.HardBreak =>
    match st.heading_text with
    | some cur =>
      if endsWithSpace cur then st else { st with heading_text := some (cur ++ " ") }
    | none => st
  | _ => st

/-- `collect_heading_ids` (src/render.rs lines 345-404) over the parse event
stream. -/
def collect_heading_ids (events : List Event) : List String :=
  (events.foldl headingIdStep
    { ids := [], used_ids := [], next_suffixes := [],
      heading_aliases := collect_internal_heading_aliases events,
      heading_text := none, explicit_heading_id := none }).ids

/-- `MarkdownRenderer::render` (src/render.rs lines 22-98), with the
pulldown_cmark parse (already specialised to the renderer options, which
`Default` sets to `Options::all()`) passed as a function from the markdown
text to its offset event stream. -/
def render (parse : String → List (Event × Nat)) (markdown : String) : String :=
  let starts := line_start_indices markdown
  let heading_ids := collect_heading_ids ((parse markdown).map Prod.fst)
  (renderLoop heading_ids starts initialRenderState (parse markdown)).output ++
    "</article>"

/-- The `data-line` marker values `render` writes, in emission order. -/
def renderMarkers (parse : String → List (Event × Nat)) (markdown : String) :
    List Nat :=
  (renderLoop (collect_heading_ids ((parse markdown).map Prod.fst))
    (line_start_indices markdown) initialRenderState (parse markdown)).markers

/-! ### Association-list lemmas -/

theorem alistFind_update_self (l : List (Int × Session)) (k : Int)
    (f : Session → Session) :
    alistFind (alistUpdate l k f) k = (alistFind l k).map f := by
  induction l with
  | nil => rfl
  | cons p rest ih =>
    by_cases h : p.1 = k
    · simp [alistUpdate, alistFind, h]
    · simp [alistUpdate, alistFind, h, ih]

theorem alistFind_update_other (l : List (Int × Session)) (k : Int)
    (f : Session → Session) (k₂ : Int) (h : k₂ ≠ k) :
    alistFind (alistUpdate l k f) k₂ = alistFind l k₂ := by
  induction l with
  | nil => rfl
  | cons p rest ih =>
    by_cases hp : p.1 = k
    · simp [alistUpdate, alistFind, hp, (Ne.symm h : ¬ k = k₂)]
    · by_cases hq : p.1 = k₂ <;> simp [alistUpdate, alistFind, hp, hq, h, ih]

theorem alistFind_eq_none_iff (l : List (Int × Session)) (k : Int) :
    alistFind l k = none ↔ k ∉ l.map Prod.fst := by
  induction l with
  | nil => simp [alistFind]
  | cons p rest ih =>
    by_cases h : p.1 = k
    · simp [alistFind, h]
    · rw [alistFind, if_neg h, ih]
      simp only [List.map_cons, List.mem_cons, not_or]
      constructor
      · intro hk; exact ⟨fun hh => h hh.symm, hk⟩
      · intro hk; exact hk.2

theorem alistUpdate_keys (l : List (Int × Session)) (k : Int)
    (f : Session → Session) :
    (alistUpdate l k f).map Prod.fst = l.map Prod.fst := by
  induction l with
  | nil => rfl
  | cons p rest ih =>
    by_cases h : p.1 = k <;> simp [alistUpdate, h, ih]

theorem mem_alistUpdate (l : List (Int × Session)) (k : Int)
    (f : Session → Session) (p : Int × Session) (hp : p ∈ alistUpdate l k f) :
    p ∈ l ∨ ∃ q ∈ l, p = (q.1, f q.2) := by
  induction l with
  | nil => simp [alistUpdate] at hp
  | cons q rest ih =>
    by_cases h : q.1 = k
    · simp only [alistUpdate, if_pos h, List.mem_cons] at hp
      rcases hp with hp | hp
      · exact Or.inr ⟨q, by simp, hp⟩
      · exact Or.inl (by simp [hp])
    · simp only [alistUpdate, if_neg h, List.mem_cons] at hp
      rcases hp with hp | hp
      · exact Or.inl (by simp [hp])
      · rcases ih hp with hh | ⟨r, hr, hpr⟩
        · exact Or.inl (by simp [hh])
        · exact Or.inr ⟨r, by simp [hr], hpr⟩

theorem mem_alistRemove (l : List (Int × Session)) (k : Int)
    (p : Int × Session) (hp : p ∈ alistRemove l k) : p ∈ l := by
  induction l with
  | nil => simp [alistRemove] at hp
  | cons q rest ih =>
    by_cases h : q.1 = k
    · simp only [alistRemove, if_pos h] at hp
      exact List.mem_cons_of_mem q hp
    · simp only [alistRemove, if_neg h, List.mem_cons] at hp
      rcases hp with hp | hp
      · simp [hp]
      · exact List.mem_cons_of_mem q (ih hp)

theorem alistRemove_keys_sublist (l : List (Int × Session)) (k : Int) :
    ((alistRemove l k).map Prod.fst).Sublist (l.map Prod.fst) := by
  induction l with
  | nil => simp [alistRemove]
  | cons q rest ih =>
    by_cases h : q.1 = k
    · simp only [alistRemove, if_pos h, List.map_cons]
      exact List.sublist_cons_self q.1 (rest.map Prod.fst)
    · simp only [alistRemove, if_neg h, List.map_cons]
      exact ih.cons₂ q.1

theorem alistFind_remove_self (l : List (Int × Session)) (k : Int)
    (h : (l.map Prod.fst).Nodup) : alistFind (alistRemove l k) k = none := by
  induction l with
  | nil => rfl
  | cons q rest ih =>
    simp only [List.map_cons, List.nodup_cons] at h
    by_cases hq : q.1 = k
    · simp only [alistRemove, if_pos hq]
      rw [alistFind_eq_none_iff]
      rw [hq] at h
      exact h.1
    · simp only [alistRemove, if_neg hq, alistFind, if_neg hq]
      exact ih h.2

theorem alistFind_remove_other (l : List (Int × Session)) (k : Int) (k₂ : Int)
    (h : k₂ ≠ k) : alistFind (alistRemove l k) k₂ = alistFind l k₂ := by
  induction l with
  | nil => rfl
  | cons q rest ih =>
    by_cases hq : q.1 = k
    · simp [alistRemove, alistFind, hq, (Ne.symm h : ¬ k = k₂)]
    · by_cases hq₂ : q.1 = k₂ <;> simp [alistRemove, alistFind, hq, hq₂, h, ih]

/-! ### Gate lemmas and claims C2, C9 -/

/-- Claim C2, amended.  The gate state holds a single `(document, instant)`
slot for content emissions, not a per-document map: a call returns false
exactly when the slot currently records the same document within the content
window; every allowed call overwrites the slot (so per-document suppression
is not independent of calls for other documents — see the counterexample);
the first call of a run is always allowed. -/
theorem allow_content_emit_single_slot (g : AutocmdGate) (st : GateState)
    (b : Int) (now : Nat) :
    ((allow_content_emit g st b now).1 = false ↔
      ∃ le, st.last_content_emit = some (b, le) ∧ now - le < g.content_window) ∧
    ((allow_content_emit g st b now).1 = true →
      (allow_content_emit g st b now).2 =
        { st with last_content_emit := some (b, now) }) ∧
    ((allow_content_emit g st b now).1 = false →
      (allow_content_emit g st b now).2 = st) ∧
    runContentCalls g GateState.initial [(b, now)] = [true] := by
  refine ⟨?_, ?_, ?_, rfl⟩
  · rcases h : st.last_content_emit with _ | ⟨lb, le⟩
    · constructor
      · intro hf; simp [allow_content_emit, h] at hf
      · rintro ⟨le, hle, _⟩; cases hle
    · constructor
      · intro hf
        by_cases hc : lb = b ∧ now - le < g.content_window
        · exact ⟨le, by rw [hc.1], hc.2⟩
        · simp [allow_content_emit, h, if_neg hc] at hf
      · rintro ⟨le₂, hle₂, hw⟩
        simp only [Option.some.injEq, Prod.mk.injEq] at hle₂
        obtain ⟨hb, hle⟩ := hle₂
        subst hb
        subst hle
        simp [allow_content_emit, h, hw]
  · intro ht
    rcases h : st.last_content_emit with _ | ⟨lb, le⟩
    · simp [allow_content_emit, h]
    · by_cases hc : lb = b ∧ now - le < g.content_window
      · simp [allow_content_emit, h, hc] at ht
      · simp [allow_content_emit, h, if_neg hc]
  · intro hf
    rcases h : st.last_content_emit with _ | ⟨lb, le⟩
    · simp [allow_content_emit, h] at hf
    · by_cases hc : lb = b ∧ now - le < g.content_window
      · simp [allow_content_emit, h, hc]
      · simp [allow_content_emit, h, if_neg hc] at hf

/-- Claim C2, counterexample to the claim as stated.  With the default
100ms window: doc 1 is allowed at t = 0; doc 2 is allowed at t = 10 and
overwrites the single slot; doc 1 at t = 20 — 20ms after its last allowed
call, well inside the window — is allowed again, where the claim requires
false (per-document independence fails). -/
theorem allow_content_emit_cross_buffer_counterexample :
    runContentCalls defaultGate GateState.initial [(1, 0), (2, 10), (1, 20)] =
      [true, true, true] ∧ (20 : Nat) - 0 < defaultGate.content_window := by
  decide

/-- Claim C9, amended.  Like the content gate, the cursor gate keeps one
global `(document, instant, line)` record of the last allowed emission: a
call is refused exactly when that record is for the same document and the
same line (regardless of time), or for the same document within the cursor
window; a refused call leaves the state unchanged; an allowed call
overwrites the record.  The claim's concrete example survives: for any one
document, `(doc, line)` then `(doc, line)` gives true then false. -/
theorem allow_cursor_emit_single_slot (g : AutocmdGate) (st : GateState)
    (b : Int) (line : Nat) (now : Nat) :
    ((allow_cursor_emit g st b line now).1 = false ↔
      (∃ le, st.last_cursor_emit = some (b, le, line)) ∨
      (∃ le l₂, st.last_cursor_emit = some (b, le, l₂) ∧ l₂ ≠ line ∧
        now - le < g.cursor_window)) ∧
    ((allow_cursor_emit g st b line now).1 = true →
      (allow_cursor_emit g st b line now).2 =
        { st with last_cursor_emit := some (b, now, line) }) ∧
    ((allow_cursor_emit g st b line now).1 = false →
      (allow_cursor_emit g st b line now).2 = st) ∧
    (∀ t₁ t₂ : Nat,
      runCursorCalls g GateState.initial [(b, line, t₁), (b, line, t₂)] =
        [true, false]) := by
  refine ⟨?_, ?_, ?_, ?_⟩
  · rcases h : st.last_cursor_emit with _ | ⟨lb, le, ll⟩
    · constructor
      · intro hf; simp [allow_cursor_emit, h] at hf
      · rintro (⟨le, hle⟩ | ⟨le, l₂, hle, _, _⟩) <;> cases hle
    · constructor
      · intro hf
        by_cases hdup : lb = b ∧ ll = line
        · exact Or.inl ⟨le, by rw [hdup.1, hdup.2]⟩
        · by_cases hb : lb = b
          · have hl : ll ≠ line := fun hh => hdup ⟨hb, hh⟩
            by_cases hw : g.cursor_window ≤ now - le
            · subst hb
              simp [allow_cursor_emit, h, hdup, hl, hw] at hf
            · exact Or.inr ⟨le, ll, by rw [hb], hl, by omega⟩
          · simp [allow_cursor_emit, h, hdup, hb] at hf
      · rintro (⟨le₂, hle⟩ | ⟨le₂, l₂, hle, hl, hw⟩)
        · simp only [Option.some.injEq, Prod.mk.injEq] at hle
          obtain ⟨hb, hle, hll⟩ := hle
          subst hb; subst hle; subst hll
          simp [allow_cursor_emit, h]
        · simp only [Option.some.injEq, Prod.mk.injEq] at hle
          obtain ⟨hb, hle, hll⟩ := hle
          subst hb; subst hle; subst hll
          have : ¬ (g.cursor_window ≤ now - le) := by omega
          simp [allow_cursor_emit, h, hl, this]
  · intro ht
    rcases h : st.last_cursor_emit with _ | ⟨lb, le, ll⟩
    · simp [allow_cursor_emit, h]
    · by_cases hdup : lb = b ∧ ll = line
      · obtain ⟨hb, hl⟩ := hdup
        subst hb; subst hl
        simp [allow_cursor_emit, h] at ht
      · by_cases hb : lb = b
        · have hl : ll ≠ line := fun hh => hdup ⟨hb, hh⟩
          subst hb
          by_cases hw : g.cursor_window ≤ now - le
          · simp [allow_cursor_emit, h, hl, hw]
          · simp [allow_cursor_emit, h, hl, hw] at ht
        · simp [allow_cursor_emit, h, hdup, hb]
  · intro hf
    rcases h : st.last_cursor_emit with _ | ⟨lb, le, ll⟩
    · simp [allow_cursor_emit, h] at hf
    · by_cases hdup : lb = b ∧ ll = line
      · obtain ⟨hb, hl⟩ := hdup
        subst hb; subst hl
        simp [allow_cursor_emit, h]
      · by_cases hb : lb = b
        · have hl : ll ≠ line := fun hh => hdup ⟨hb, hh⟩
          subst hb
          by_cases hw : g.cursor_window ≤ now - le
          · simp [allow_cursor_emit, h, hl, hw] at hf
          · simp [allow_cursor_emit, h, hl, hw]
        · simp [allow_cursor_emit, h, hdup, hb] at hf
  · intro t₁ t₂
    simp [runCursorCalls, allow_cursor_emit, GateState.initial]

/-- Claim C9, counterexample to the claim as stated.  Doc 1 line 10 is
allowed at t = 0; doc 2 line 5 is allowed at t = 1 and overwrites the single
record; doc 1 line 10 at t = 2 is then allowed although the line equals the
last allowed line for doc 1, where the claim requires false. -/
theorem allow_cursor_emit_cross_buffer_counterexample :
    runCursorCalls defaultGate GateState.initial
      [(1, 10, 0), (2, 5, 1), (1, 10, 2)] = [true, true, true] := by
  decide

/-! ### Claim C1: update_content -/

/-- Claim C1.  For a buffer that has a Session, `update_content` is a no-op
(false, state untouched, nothing published) exactly when the recorded
changedtick equals the snapshot changedtick AND the recorded fingerprint
equals the hash of the snapshot text; otherwise it returns true, publishes
exactly one `RenderFull` with the re-rendered text on the session hub, and
replaces exactly the content-derived fields (`applySnapshot` keeps `state`,
`subscribers`, `hub` and `bufnr` from the old session).  The renderer and
the std hasher are the `renderF`/`hashF` parameters. -/
theorem update_content_spec (renderF : String → String) (hashF : String → Nat)
    (snap : BufferSnapshot) (st : SessionManager) (s : Session)
    (hs : alistFind st.sessions snap.bufnr = some s) :
    (update_content renderF hashF snap st = (false, st, []) ↔
      s.changedtick = snap.changedtick ∧ s.content_hash = hashF snap.markdown) ∧
    ((s.changedtick ≠ snap.changedtick ∨ s.content_hash ≠ hashF snap.markdown) →
      update_content renderF hashF snap st =
        (true,
         { st with sessions := (alistUpdate st.sessions snap.bufnr (fun _ =>
             applySnapshot snap (hashF snap.markdown) (renderF snap.markdown) s)) },
         [(s.hub, ServerEvent.RenderFull snap.bufnr (renderF snap.markdown)
             snap.cursor_line)])) := by
  by_cases hc : s.changedtick = snap.changedtick ∧ s.content_hash = hashF snap.markdown
  · constructor
    · simp [update_content, hs, hc]
    · intro hne
      rcases hne with hne | hne <;> exact absurd (by tauto) hne
  · constructor
    · simp only [update_content, hs, if_neg hc]
      constructor
      · intro hh; cases hh
      · intro hh; exact absurd hh hc
    · intro _
      simp only [update_content, hs, if_neg hc]
      simp [applySnapshot]

def wSessionA : Session :=
  { bufnr := 1, changedtick := 5, content_hash := 2, cursor_line := 1,
    cursor_col := 0, subscribers := [7], html := "old",
    source_path := some "/tmp/a.md", state := LifecycleState.Running, hub := 3 }

def wManagerA : SessionManager := ⟨[(1, wSessionA)], some 1, 4⟩

def wSnapA : BufferSnapshot :=
  { bufnr := 1, changedtick := 6, markdown := "ab", cursor_line := 2,
    cursor_col := 1, source_path := none }

def wRender : String → String := fun md => "<p>" ++ md ++ "</p>"

def wHash : String → Nat := String.length

/-- Claim C1, witness: `update_content_spec` at a concrete one-session
store. -/
theorem update_content_spec_witness :
    alistFind wManagerA.sessions wSnapA.bufnr = some wSessionA ∧
    ((update_content wRender wHash wSnapA wManagerA = (false, wManagerA, []) ↔
      wSessionA.changedtick = wSnapA.changedtick ∧
      wSessionA.content_hash = wHash wSnapA.markdown) ∧
     ((wSessionA.changedtick ≠ wSnapA.changedtick ∨
       wSessionA.content_hash ≠ wHash wSnapA.markdown) →
      update_content wRender wHash wSnapA wManagerA =
        (true,
         { wManagerA with sessions := (alistUpdate wManagerA.sessions wSnapA.bufnr
             (fun _ => applySnapshot wSnapA (wHash wSnapA.markdown)
               (wRender wSnapA.markdown) wSessionA)) },
         [(wSessionA.hub, ServerEvent.RenderFull wSnapA.bufnr
             (wRender wSnapA.markdown) wSnapA.cursor_line)]))) :=
  ⟨rfl, update_content_spec wRender wHash wSnapA wManagerA wSessionA rfl⟩

/-! ### Claims C6 and C10: URL sanitisation -/

theorem startsWith_of_prefix (s p q : String) (hpq : p.data <+: q.data)
    (h : startsWithStr s q = true) : startsWithStr s p = true := by
  rw [startsWithStr, List.isPrefixOf_iff_prefix] at h ⊢
  exact hpq.trans h

theorem startsWith_clash (s p q : String) (h₁ : startsWithStr s p = true)
    (h₂ : startsWithStr s q = true) : p.data <+: q.data ∨ q.data <+: p.data := by
  rw [startsWithStr, List.isPrefixOf_iff_prefix] at h₁ h₂
  exact List.prefix_or_prefix_of_prefix h₁ h₂

/-- Claim C6, amended.  The sanitisation table of `sanitize_url` and
`sanitize_image_url`: dangerous schemes (`javascript:`, `vbscript:`, and
`data:` — for images only non-`data:image/` subtypes) yield the placeholder
`#`; a `data:image/` image destination is kept; every other destination
passes through trimmed — provided the trimmed destination is nonempty.
The amendment: an empty or whitespace-only destination also yields `#`
rather than passing through (the counterexample). -/
theorem sanitize_url_spec :
    (∀ url, (startsWithStr (asciiLower (rustTrim url)) "javascript:" = true ∨
             startsWithStr (asciiLower (rustTrim url)) "data:" = true ∨
             startsWithStr (asciiLower (rustTrim url)) "vbscript:" = true) →
      sanitize_url url = "#") ∧
    (∀ url, (startsWithStr (asciiLower (rustTrim url)) "javascript:" = true ∨
             startsWithStr (asciiLower (rustTrim url)) "vbscript:" = true) →
      sanitize_image_url url = "#") ∧
    (∀ url, startsWithStr (asciiLower (rustTrim url)) "data:" = true →
      startsWithStr (asciiLower (rustTrim url)) "data:image/" = false →
      sanitize_image_url url = "#") ∧
    (∀ url, startsWithStr (asciiLower (rustTrim url)) "data:image/" = true →
      sanitize_image_url url = rustTrim url) ∧
    (∀ url, rustTrim url ≠ "" →
      startsWithStr (asciiLower (rustTrim url)) "javascript:" = false →
      startsWithStr (asciiLower (rustTrim url)) "data:" = false →
      startsWithStr (asciiLower (rustTrim url)) "vbscript:" = false →
      sanitize_url url = rustTrim url) ∧
    (∀ url, rustTrim url ≠ "" →
      startsWithStr (asciiLower (rustTrim url)) "javascript:" = false →
      startsWithStr (asciiLower (rustTrim url)) "vbscript:" = false →
      startsWithStr (asciiLower (rustTrim url)) "data:" = false →
      sanitize_image_url url = rustTrim url) ∧
    (∀ url, rustTrim url = "" →
      sanitize_url url = "#" ∧ sanitize_image_url url = "#") := by
  refine ⟨?_, ?_, ?_, ?_, ?_, ?_, ?_⟩
  · intro url h
    by_cases he : rustTrim url = ""
    · rw [he] at h
      rcases h with h | h | h <;> exact absurd h (by decide)
    · rcases h with h | h | h <;> simp [sanitize_url, he, h]
  · intro url h
    by_cases he : rustTrim url = ""
    · rw [he] at h
      rcases h with h | h <;> exact absurd h (by decide)
    · rcases h with h | h <;> simp [sanitize_image_url, he, h]
  · intro url hdata hni
    by_cases he : rustTrim url = ""
    · rw [he] at hdata
      exact absurd hdata (by decide)
    · have hjs : startsWithStr (asciiLower (rustTrim url)) "javascript:" = false := by
        cases hb : startsWithStr (asciiLower (rustTrim url)) "javascript:"
        · rfl
        · rcases startsWith_clash _ _ _ hdata hb with hc | hc <;>
            exact absurd hc (by decide)
      have hvb : startsWithStr (asciiLower (rustTrim url)) "vbscript:" = false := by
        cases hb : startsWithStr (asciiLower (rustTrim url)) "vbscript:"
        · rfl
        · rcases startsWith_clash _ _ _ hdata hb with hc | hc <;>
            exact absurd hc (by decide)
      simp [sanitize_image_url, he, hjs, hvb, hdata, hni]
  · intro url h
    by_cases he : rustTrim url = ""
    · rw [he] at h
      exact absurd h (by decide)
    · have hdata : startsWithStr (asciiLower (rustTrim url)) "data:" = true :=
        startsWith_of_prefix _ _ _ (by decide) h
      have hjs : startsWithStr (asciiLower (rustTrim url)) "javascript:" = false := by
        cases hb : startsWithStr (asciiLower (rustTrim url)) "javascript:"
        · rfl
        · rcases startsWith_clash _ _ _ h hb with hc | hc <;>
            exact absurd hc (by decide)
      have hvb : startsWithStr (asciiLower (rustTrim url)) "vbscript:" = false := by
        cases hb : startsWithStr (asciiLower (rustTrim url)) "vbscript:"
        · rfl
        · rcases startsWith_clash _ _ _ h hb with hc | hc <;>
            exact absurd hc (by decide)
      simp [sanitize_image_url, he, hjs, hvb, hdata, h]
  · intro url he hjs hdata hvb
    simp [sanitize_url, he, hjs, hdata, hvb]
  · intro url he hjs hvb hdata
    simp [sanitize_image_url, he, hjs, hvb, hdata]
  · intro url he
    constructor <;> simp [sanitize_url, sanitize_image_url, he]

/-- Claim C6, counterexample to the pass-through clause as stated: the
whitespace-only destination `" "` matches none of the dangerous scheme
prefixes, so by the claim it should pass through trimmed (that is, become
the empty string), but both sanitisers rewrite it to `#`. -/
theorem sanitize_whitespace_counterexample :
    (startsWithStr (asciiLower (rustTrim " ")) "javascript:" = false ∧
     startsWithStr (asciiLower (rustTrim " ")) "data:" = false ∧
     startsWithStr (asciiLower (rustTrim " ")) "vbscript:" = false) ∧
    sanitize_url " " ≠ rustTrim " " ∧ sanitize_image_url " " ≠ rustTrim " " ∧
    sanitize_url " " = "#" ∧ sanitize_image_url " " = "#" := by
  decide

/-- Claim C10.  A destination that is empty or all whitespace trims to the
empty string, and both sanitisers map it to `#` (so no rendered href or src
attribute is ever empty). -/
theorem sanitize_empty_spec (s : String)
    (h : ∀ c ∈ s.data, rustIsWhitespace c = true) :
    rustTrim s = "" ∧ sanitize_url s = "#" ∧ sanitize_image_url s = "#" := by
  have he : rustTrim s = "" := by
    rw [rustTrim]
    have h₁ : s.data.dropWhile rustIsWhitespace = [] :=
      List.dropWhile_eq_nil_iff.mpr h
    rw [h₁]
    rfl
  exact ⟨he, by simp [sanitize_url, he], by simp [sanitize_image_url, he]⟩

/-- Claim C10, witness: `sanitize_empty_spec` at the one-blank string. -/
theorem sanitize_empty_spec_witness :
    (∀ c ∈ (" " : String).data, rustIsWhitespace c = true) ∧
    (rustTrim " " = "" ∧ sanitize_url " " = "#" ∧ sanitize_image_url " " = "#") :=
  ⟨by decide, sanitize_empty_spec " " (by decide)⟩

/-! ### Claim C8: determinism of render -/

/-- Claim C8.  `render` is a pure function: repeated calls on the same text
give byte-identical output, and the output depends on nothing but the parse
of the text (in particular, on no shared mutable state: two renderers whose
parses agree on a text render it identically). -/
theorem render_deterministic :
    (∀ (parse : String → List (Event × Nat)) (t : String),
      render parse t = render parse t) ∧
    (∀ (parse₁ parse₂ : String → List (Event × Nat)) (t : String),
      parse₁ t = parse₂ t → render parse₁ t = render parse₂ t) := by
  refine ⟨fun _ _ => rfl, fun parse₁ parse₂ t h => ?_⟩
  simp [render, h]

/-! ### Claim C3: stop_session -/

theorem alistRemove_length (l : List (Int × Session)) (k : Int) (s : Session)
    (hs : alistFind l k = some s) : (alistRemove l k).length + 1 = l.length := by
  induction l with
  | nil => cases hs
  | cons q rest ih =>
    by_cases h : q.1 = k
    · simp [alistRemove, h]
    · rw [alistFind, if_neg h] at hs
      simp only [alistRemove, if_neg h, List.length_cons]
      rw [ih hs]

/-- Claim C3.  `stop_session` on a document without a Session returns false
and changes nothing; on a document with a Session it removes exactly that
Session, sends exactly one `SessionEnd` with this document and reason on
that Session's hub, clears the active pointer iff it referenced the
document, and returns true — after which no accessor sees the Session
(`has_session` false, `snapshot` none, the count drops by one, all other
entries untouched). -/
theorem stop_session_spec (bufnr : Int) (reason : SessionEndReason)
    (st : SessionManager) (hd : (st.sessions.map Prod.fst).Nodup) :
    (alistFind st.sessions bufnr = none →
      stop_session bufnr reason st = (false, st, [])) ∧
    (∀ s, alistFind st.sessions bufnr = some s →
      stop_session bufnr reason st =
        (true,
         { sessions := alistRemove st.sessions bufnr,
           active_bufnr := if st.active_bufnr = some bufnr then none
             else st.active_bufnr,
           next_hub := st.next_hub },
         [(s.hub, ServerEvent.SessionEnd bufnr reason)]) ∧
      has_session bufnr (stop_session bufnr reason st).2.1 = false ∧
      snapshot bufnr (stop_session bufnr reason st).2.1 = none ∧
      session_count (stop_session bufnr reason st).2.1 + 1 = session_count st ∧
      (∀ b₂, b₂ ≠ bufnr →
        alistFind ((stop_session bufnr reason st).2.1).sessions b₂ =
          alistFind st.sessions b₂)) := by
  constructor
  · intro h
    simp [stop_session, h]
  · intro s hs
    have hrm : alistFind (alistRemove st.sessions bufnr) bufnr = none :=
      alistFind_remove_self st.sessions bufnr hd
    refine ⟨by simp [stop_session, hs], ?_, ?_, ?_, ?_⟩
    · simp [stop_session, hs, has_session, hrm]
    · simp [stop_session, hs, snapshot, hrm]
    · simpa [stop_session, hs, session_count] using
        alistRemove_length st.sessions bufnr s hs
    · intro b₂ hb₂
      simp [stop_session, hs, alistFind_remove_other st.sessions bufnr b₂ hb₂]

/-- Claim C3, witness: `stop_session_spec` at a concrete one-session
store. -/
theorem stop_session_spec_witness :
    ((wManagerA.sessions.map Prod.fst).Nodup) ∧
    ((alistFind wManagerA.sessions 1 = none →
      stop_session 1 SessionEndReason.Stopped wManagerA =
        (false, wManagerA, [])) ∧
     (∀ s, alistFind wManagerA.sessions 1 = some s →
      stop_session 1 SessionEndReason.Stopped wManagerA =
        (true,
         { sessions := alistRemove wManagerA.sessions 1,
           active_bufnr := if wManagerA.active_bufnr = some 1 then none
             else wManagerA.active_bufnr,
           next_hub := wManagerA.next_hub },
         [(s.hub, ServerEvent.SessionEnd 1 SessionEndReason.Stopped)]) ∧
      has_session 1 (stop_session 1 SessionEndReason.Stopped wManagerA).2.1 =
        false ∧
      snapshot 1 (stop_session 1 SessionEndReason.Stopped wManagerA).2.1 =
        none ∧
      session_count (stop_session 1 SessionEndReason.Stopped wManagerA).2.1 + 1 =
        session_count wManagerA ∧
      (∀ b₂, b₂ ≠ 1 →
        alistFind ((stop_session 1 SessionEndReason.Stopped wManagerA).2.1).sessions
            b₂ =
          alistFind wManagerA.sessions b₂))) :=
  ⟨by decide, stop_session_spec 1 SessionEndReason.Stopped wManagerA (by decide)⟩

/-! ### Claim C7: marker monotonicity -/

theorem render_start_tag_markers (ids : List String) (st : RenderState)
    (tag : Tag) (line : Nat) :
    ((render_start_tag ids st tag line).markers = st.markers ∨
     (render_start_tag ids st tag line).markers = st.markers ++ [line]) ∧
    (render_start_tag ids st tag line).last_line = st.last_line := by
  cases tag <;> simp [render_start_tag, open_block_tag]

theorem render_end_tag_markers (st : RenderState) (tag : TagEnd) :
    (render_end_tag st tag).markers = st.markers ∧
    (render_end_tag st tag).last_line = st.last_line := by
  cases tag with
  | ListEnd ordered => cases ordered <;> simp [render_end_tag]
  | _ => simp [render_end_tag]

theorem render_image_alt_markers (st : RenderState) (ev : Event) :
    (render_image_alt_event st ev).markers = st.markers ∧
    (render_image_alt_event st ev).last_line = st.last_line := by
  cases ev with
  | End tag =>
    cases tag with
    | Image =>
      rcases h : st.image_titles.head? with _ | ⟨_ | title⟩ <;>
        simp [render_image_alt_event, h]
    | _ => simp [render_image_alt_event]
  | _ => simp [render_image_alt_event]

theorem renderStep_markers (ids : List String) (starts : List Nat)
    (st : RenderState) (ev : Event) (off : Nat) :
    st.last_line ≤ (renderStep ids starts st ev off).last_line ∧
    ((renderStep ids starts st ev off).markers = st.markers ∨
     (renderStep ids starts st ev off).markers =
       st.markers ++ [(renderStep ids starts st ev off).last_line]) := by
  rw [renderStep.eq_def]
  set L := if line_for_offset off starts < st.last_line then st.last_line
    else line_for_offset off starts with hL
  have hle : st.last_line ≤ L := by rw [hL]; split <;> omega
  set st₂ : RenderState := { st with last_line := L } with hst₂
  have him : st₂.image_titles = st.image_titles := rfl
  by_cases h : st₂.image_titles ≠ []
  · rw [if_pos h]
    obtain ⟨hm, hl⟩ := render_image_alt_markers st₂ ev
    rw [hm, hl]
    exact ⟨hle, Or.inl rfl⟩
  · rw [if_neg h]
    cases ev with
    | Start tag =>
      obtain ⟨hm, hl⟩ := render_start_tag_markers ids st₂ tag L
      rw [hl]
      refine ⟨hle, ?_⟩
      rcases hm with hm | hm <;> rw [hm]
      · exact Or.inl rfl
      · exact Or.inr rfl
    | End tag =>
      obtain ⟨hm, hl⟩ := render_end_tag_markers st₂ tag
      rw [hm, hl]
      exact ⟨hle, Or.inl rfl⟩
    | _ => exact ⟨hle, Or.inl rfl⟩

theorem renderLoop_markers (ids : List String) (starts : List Nat)
    (evs : List (Event × Nat)) : ∀ st : RenderState,
    List.Chain' (· ≤ ·) st.markers → (∀ m ∈ st.markers, m ≤ st.last_line) →
    List.Chain' (· ≤ ·) (renderLoop ids starts st evs).markers ∧
    (∀ m ∈ (renderLoop ids starts st evs).markers,
      m ≤ (renderLoop ids starts st evs).last_line) ∧
    st.last_line ≤ (renderLoop ids starts st evs).last_line := by
  induction evs with
  | nil => exact fun st h₁ h₂ => ⟨h₁, h₂, le_refl _⟩
  | cons p rest ih =>
    intro st h₁ h₂
    obtain ⟨ev, off⟩ := p
    obtain ⟨hle, hm⟩ := renderStep_markers ids starts st ev off
    rw [renderLoop]
    have hch : List.Chain' (· ≤ ·) (renderStep ids starts st ev off).markers := by
      rcases hm with hm | hm <;> rw [hm]
      · exact h₁
      · refine List.Chain'.append h₁ (List.chain'_singleton _) ?_
        intro x hx y hy
        simp only [List.head?_cons, Option.mem_def, Option.some.injEq] at hy
        subst hy
        exact le_trans (h₂ x (List.mem_of_mem_getLast? hx)) hle
    have hb : ∀ m ∈ (renderStep ids starts st ev off).markers,
        m ≤ (renderStep ids starts st ev off).last_line := by
      rcases hm with hm | hm <;> rw [hm]
      · exact fun m hmm => le_trans (h₂ m hmm) hle
      · intro m hmm
        rcases List.mem_append.mp hmm with hh | hh
        · exact le_trans (h₂ m hh) hle
        · simp only [List.mem_singleton] at hh
          omega
    obtain ⟨g₁, g₂, g₃⟩ := ih (renderStep ids starts st ev off) hch hb
    exact ⟨g₁, g₂, le_trans hle g₃⟩

/-- Claim C7.  For every markdown text and every parse event stream, the
`data-line` marker values `render` writes are non-decreasing in emission
order; the per-event clamp is exactly `max last_line (line of the parser
offset)`, so a parser offset mapping to an earlier line never makes a
marker regress. -/
theorem render_markers_monotone :
    (∀ (parse : String → List (Event × Nat)) (markdown : String),
      List.Chain' (· ≤ ·) (renderMarkers parse markdown)) ∧
    (∀ (ids : List String) (starts : List Nat) (st : RenderState) (ev : Event)
      (off : Nat),
      (renderStep ids starts st ev off).last_line =
        max st.last_line (line_for_offset off starts)) := by
  constructor
  · intro parse markdown
    exact (renderLoop_markers _ _ _ initialRenderState (by constructor)
      (by intro m hm; simp [initialRenderState] at hm)).1
  · intro ids starts st ev off
    rw [renderStep.eq_def]
    set L := if line_for_offset off starts < st.last_line then st.last_line
      else line_for_offset off starts with hL
    set st₂ : RenderState := { st with last_line := L } with hst₂
    have hgoal : L = max st.last_line (line_for_offset off starts) := by
      rw [hL]; split <;> omega
    by_cases h : st₂.image_titles ≠ []
    · rw [if_pos h, (render_image_alt_markers st₂ ev).2]
      exact hgoal
    · rw [if_neg h]
      cases ev with
      | Start tag => rw [(render_start_tag_markers ids st₂ tag L).2]; exact hgoal
      | End tag => rw [(render_end_tag_markers st₂ tag).2]; exact hgoal
      | _ => exact hgoal

/-! ### Claim C4: store invariants -/

/-- The invariant of claim C4 on the session map: keys are unique (at most
one Session per document) and no stored Session is in the Stopped state. -/
def SessionsWF (st : SessionManager) : Prop :=
  (st.sessions.map Prod.fst).Nodup ∧
  ∀ p ∈ st.sessions, p.2.state ≠ LifecycleState.Stopped

theorem alistFind_mem (l : List (Int × Session)) (k : Int) (s : Session)
    (h : alistFind l k = some s) : (k, s) ∈ l := by
  induction l with
  | nil => cases h
  | cons q rest ih =>
    by_cases hq : q.1 = k
    · rw [alistFind, if_pos hq] at h
      injection h with h
      subst hq
      subst h
      simp
    · rw [alistFind, if_neg hq] at h
      exact List.mem_cons_of_mem q (ih h)

theorem sessionsWF_alistUpdate (st : SessionManager) (k : Int)
    (f : Session → Session) (h : SessionsWF st)
    (hf : ∀ s : Session, s.state ≠ LifecycleState.Stopped →
      (f s).state ≠ LifecycleState.Stopped)
    (active' : Option Int) (hub' : Nat) :
    SessionsWF ⟨alistUpdate st.sessions k f, active', hub'⟩ := by
  constructor
  · simpa [alistUpdate_keys] using h.1
  · intro p hp
    rcases mem_alistUpdate st.sessions k f p hp with hh | ⟨q, hq, hpq⟩
    · exact h.2 p hh
    · rw [hpq]
      exact hf q.2 (h.2 q hq)

theorem applySnapshot_state (snap : BufferSnapshot) (hash : Nat)
    (rendered : String) (s : Session) :
    (applySnapshot snap hash rendered s).state = s.state := rfl

theorem wf_start (renderF : String → String) (hashF : String → Nat)
    (snap : BufferSnapshot) (st : SessionManager) (h : SessionsWF st) :
    SessionsWF (start_session renderF hashF snap st).1 := by
  rcases hfind : alistFind st.sessions snap.bufnr with _ | s
  · simp only [start_session, hfind]
    constructor
    · simp only [List.map_append, List.map_cons, List.map_nil]
      rw [List.nodup_append]
      refine ⟨h.1, List.nodup_singleton _, ?_⟩
      intro b hb hbb
      simp only [List.mem_singleton] at hbb
      subst hbb
      exact (alistFind_eq_none_iff st.sessions snap.bufnr).mp hfind hb
    · intro p hp
      rcases List.mem_append.mp hp with hh | hh
      · exact h.2 p hh
      · simp only [List.mem_singleton] at hh
        rw [hh]
        simp
  · simp only [start_session, hfind]
    exact sessionsWF_alistUpdate st snap.bufnr _ h (fun s₂ _ => by simp) _ _

theorem wf_stop (bufnr : Int) (reason : SessionEndReason) (st : SessionManager)
    (h : SessionsWF st) : SessionsWF (stop_session bufnr reason st).2.1 := by
  rcases hfind : alistFind st.sessions bufnr with _ | s
  · simpa [stop_session, hfind] using h
  · simp only [stop_session, hfind]
    constructor
    · exact (alistRemove_keys_sublist st.sessions bufnr).nodup h.1
    · intro p hp
      exact h.2 p (mem_alistRemove st.sessions bufnr p hp)

theorem wf_stop_all (reason : SessionEndReason) (st : SessionManager) :
    SessionsWF (stop_all reason st).1 := by
  constructor <;> simp [stop_all]

theorem wf_pause (bufnr : Int) (st : SessionManager) (h : SessionsWF st) :
    SessionsWF (pause_session bufnr st) :=
  sessionsWF_alistUpdate st bufnr _ h (fun _ _ => by simp) _ _

theorem wf_resume (bufnr : Int) (st : SessionManager) (h : SessionsWF st) :
    SessionsWF (resume_session bufnr st) :=
  sessionsWF_alistUpdate st bufnr _ h (fun _ _ => by simp) _ _

theorem wf_update (renderF : String → String) (hashF : String → Nat)
    (snap : BufferSnapshot) (st : SessionManager) (h : SessionsWF st) :
    SessionsWF (update_content renderF hashF snap st).2.1 := by
  rcases hfind : alistFind st.sessions snap.bufnr with _ | s
  · simpa [update_content, hfind] using h
  · by_cases hc : s.changedtick = snap.changedtick ∧
      s.content_hash = hashF snap.markdown
    · simpa [update_content, hfind, hc] using h
    · simp only [update_content, hfind, if_neg hc]
      exact sessionsWF_alistUpdate st snap.bufnr _ h
        (fun s₂ _ => by
          simpa [applySnapshot_state] using
            h.2 (snap.bufnr, s) (alistFind_mem st.sessions snap.bufnr s hfind)) _ _

theorem wf_rerender (renderF : String → String) (hashF : String → Nat)
    (snap : BufferSnapshot) (st : SessionManager) (h : SessionsWF st) :
    SessionsWF (rerender_content renderF hashF snap st).2.1 := by
  rcases hfind : alistFind st.sessions snap.bufnr with _ | s
  · simpa [rerender_content, hfind] using h
  · simp only [rerender_content, hfind]
    exact sessionsWF_alistUpdate st snap.bufnr _ h
      (fun s₂ _ => by
        simpa [applySnapshot_state] using
          h.2 (snap.bufnr, s) (alistFind_mem st.sessions snap.bufnr s hfind)) _ _

theorem wf_cursor (bufnr : Int) (line col : Nat) (st : SessionManager)
    (h : SessionsWF st) : SessionsWF (update_cursor bufnr line col st).2.1 := by
  rcases hfind : alistFind st.sessions bufnr with _ | s
  · simpa [update_cursor, hfind] using h
  · by_cases hc : s.cursor_line = line ∧ s.cursor_col = col
    · simpa [update_cursor, hfind, hc] using h
    · simp only [update_cursor, hfind, if_neg hc]
      refine sessionsWF_alistUpdate st bufnr _ h ?_ _ _
      intro s₂ _
      simpa using h.2 (bufnr, s) (alistFind_mem st.sessions bufnr s hfind)

theorem wf_subscribe (bufnr : Int) (client : Nat) (st : SessionManager)
    (h : SessionsWF st) : SessionsWF (subscribe bufnr client st).2 := by
  rcases hfind : alistFind st.sessions bufnr with _ | s
  · simpa [subscribe, hfind] using h
  · by_cases hs : s.state = LifecycleState.Stopped
    · simpa [subscribe, hfind, hs] using h
    · simp only [subscribe, hfind, if_neg hs]
      refine sessionsWF_alistUpdate st bufnr _ h ?_ _ _
      intro s₂ hs₂
      exact hs₂

theorem wf_unsubscribe (bufnr : Int) (client : Nat) (st : SessionManager)
    (h : SessionsWF st) : SessionsWF (unsubscribe bufnr client st) := by
  refine sessionsWF_alistUpdate st bufnr _ h ?_ _ _
  intro s₂ hs₂
  exact hs₂

theorem start_session_reuses (renderF : String → String) (hashF : String → Nat)
    (snap : BufferSnapshot) (st : SessionManager) (s : Session)
    (hs : alistFind st.sessions snap.bufnr = some s) :
    ∃ s₂, alistFind ((start_session renderF hashF snap st).1).sessions
        snap.bufnr = some s₂ ∧
      s₂.hub = s.hub ∧ s₂.subscribers = s.subscribers ∧
      s₂.state = LifecycleState.Running := by
  have hsess : ((start_session renderF hashF snap st).1).sessions =
      alistUpdate st.sessions snap.bufnr (fun _ =>
        { applySnapshot snap (hashF snap.markdown) (renderF snap.markdown) s with
          state := LifecycleState.Running }) := by
    simp [start_session, hs]
  refine ⟨{ applySnapshot snap (hashF snap.markdown) (renderF snap.markdown) s with
      state := LifecycleState.Running }, ?_, rfl, rfl, rfl⟩
  rw [hsess, alistFind_update_self, hs]
  rfl

/-- Claim C4.  Every store state reachable through the public operations has
at most one Session per document (unique keys) and no stored Session in the
Stopped state (a Session is marked Stopped only on the value already removed
from the map); and `start_session` on a document that already has a Session
mutates that Session in place — the resulting Session keeps the original
hub and subscriber set (the hub lives exactly as long as the Session). -/
theorem session_store_invariants (st : SessionManager) (h : Reachable st) :
    SessionsWF st ∧
    (∀ (renderF : String → String) (hashF : String → Nat)
       (snap : BufferSnapshot) (s : Session),
       alistFind st.sessions snap.bufnr = some s →
       ∃ s₂, alistFind ((start_session renderF hashF snap st).1).sessions
           snap.bufnr = some s₂ ∧
         s₂.hub = s.hub ∧ s₂.subscribers = s.subscribers ∧
         s₂.state = LifecycleState.Running) := by
  refine ⟨?_, fun renderF hashF snap s hs =>
    start_session_reuses renderF hashF snap st s hs⟩
  induction h with
  | init => exact ⟨List.nodup_nil, by simp [SessionManager.initial]⟩
  | start renderF hashF snap st _ ih => exact wf_start renderF hashF snap st ih
  | stop bufnr reason st _ ih => exact wf_stop bufnr reason st ih
  | stopAll reason st _ ih => exact wf_stop_all reason st
  | pause bufnr st _ ih => exact wf_pause bufnr st ih
  | resume bufnr st _ ih => exact wf_resume bufnr st ih
  | update renderF hashF snap st _ ih => exact wf_update renderF hashF snap st ih
  | rerender renderF hashF snap st _ ih =>
    exact wf_rerender renderF hashF snap st ih
  | cursor bufnr line col st _ ih => exact wf_cursor bufnr line col st ih
  | sub bufnr client st _ ih => exact wf_subscribe bufnr client st ih
  | unsub bufnr client st _ ih => exact wf_unsubscribe bufnr client st ih

/-- Claim C4, witness: the invariants at the concrete reachable state
obtained by starting a preview on buffer 1 from the empty store. -/
theorem session_store_invariants_witness :
    SessionsWF (start_session wRender wHash wSnapA SessionManager.initial).1 ∧
    (∀ (renderF : String → String) (hashF : String → Nat)
       (snap : BufferSnapshot) (s : Session),
       alistFind (start_session wRender wHash wSnapA
           SessionManager.initial).1.sessions snap.bufnr = some s →
       ∃ s₂, alistFind ((start_session renderF hashF snap
           (start_session wRender wHash wSnapA
             SessionManager.initial).1).1).sessions snap.bufnr = some s₂ ∧
         s₂.hub = s.hub ∧ s₂.subscribers = s.subscribers ∧
         s₂.state = LifecycleState.Running) :=
  session_store_invariants (start_session wRender wHash wSnapA
      SessionManager.initial).1
    (Reachable.start wRender wHash wSnapA SessionManager.initial Reachable.init)

/-! ### Claim C5: heading id uniquification -/

theorem uniqueLoop_hit (base : String) (used : List String)
    (next : List (String × Nat)) (suffix : Nat)
    (h : base ++ "-" ++ toString suffix ∈ used) :
    uniqueLoop base used next suffix = uniqueLoop base used next (suffix + 1) := by
  rw [uniqueLoop]
  simp [h]

theorem uniqueLoop_free (base : String) (used : List String)
    (next : List (String × Nat)) (suffix : Nat)
    (h : base ++ "-" ++ toString suffix ∉ used) :
    uniqueLoop base used next suffix =
      (base ++ "-" ++ toString suffix, (base ++ "-" ++ toString suffix) :: used,
       alistInsert next base (suffix + 1)) := by
  rw [uniqueLoop]
  simp [h]

theorem uniqueLoop_spec (base : String) (used : List String)
    (next : List (String × Nat)) (suffix : Nat) :
    ∃ N, suffix ≤ N ∧ (base ++ "-" ++ toString N) ∉ used ∧
      uniqueLoop base used next suffix =
        (base ++ "-" ++ toString N, (base ++ "-" ++ toString N) :: used,
         alistInsert next base (N + 1)) := by
  refine uniqueLoop.induct base used next
    (fun sfx => ∃ N, sfx ≤ N ∧ (base ++ "-" ++ toString N) ∉ used ∧
      uniqueLoop base used next sfx =
        (base ++ "-" ++ toString N, (base ++ "-" ++ toString N) :: used,
         alistInsert next base (N + 1))) ?_ ?_ suffix
  · intro sfx
    dsimp only
    intro hmem ih
    obtain ⟨N, hN, hfree, heq⟩ := ih
    exact ⟨N, by omega, hfree,
      by rw [uniqueLoop_hit base used next sfx hmem]; exact heq⟩
  · intro sfx
    dsimp only
    intro hmem
    exact ⟨sfx, le_refl _, hmem, uniqueLoop_free base used next sfx hmem⟩

theorem alistLookup_insert_self {α : Type} (l : List (String × α)) (k : String)
    (v : α) : alistLookup (alistInsert l k v) k = some v := by
  induction l with
  | nil => simp [alistInsert, alistLookup]
  | cons p rest ih =>
    by_cases h : p.1 = k <;> simp [alistInsert, alistLookup, h, ih]

theorem unique_heading_id_fresh (base : String) (used : List String)
    (next : List (String × Nat)) :
    (unique_heading_id base used next).1 ∉ used ∧
    (unique_heading_id base used next).2.1 =
      (unique_heading_id base used next).1 :: used := by
  by_cases h : base ∈ used
  · obtain ⟨N, hN, hfree, heq⟩ :=
      uniqueLoop_spec base used next ((alistLookup next base).getD 1)
    rw [unique_heading_id, if_pos h, heq]
    exact ⟨hfree, rfl⟩
  · rw [unique_heading_id, if_neg h]
    exact ⟨h, rfl⟩

theorem unique_heading_id_collision (base : String) (used : List String)
    (next : List (String × Nat)) (h : base ∈ used) :
    ∃ N, (alistLookup next base).getD 1 ≤ N ∧
      (unique_heading_id base used next).1 = base ++ "-" ++ toString N ∧
      alistLookup (unique_heading_id base used next).2.2 base = some (N + 1) := by
  obtain ⟨N, hN, hfree, heq⟩ :=
    uniqueLoop_spec base used next ((alistLookup next base).getD 1)
  rw [unique_heading_id, if_pos h, heq]
  exact ⟨N, hN, rfl, alistLookup_insert_self next base (N + 1)⟩

/-- The invariant carried through `collect_heading_ids`: the ids assigned so
far are pairwise distinct, and each sits in the used-id set. -/
def IdsInv (st : HeadingIdState) : Prop :=
  st.ids.Nodup ∧ ∀ i ∈ st.ids, i ∈ st.used_ids

theorem headingIdStep_inv (st : HeadingIdState) (ev : Event) (h : IdsInv st) :
    IdsInv (headingIdStep st ev) := by
  cases ev with
  | Start tag => cases tag <;> exact h
  | End tag =>
    cases tag with
    | Heading level =>
      obtain ⟨hfresh, hused⟩ := unique_heading_id_fresh
        (match st.explicit_heading_id with
         | some explicit => (explicit, st.heading_aliases)
         | none =>
           match take_heading_alias st.heading_aliases (st.heading_text.getD "") with
           | (some aliasId, aliases) => (aliasId, aliases)
           | (none, aliases) => (slugify_heading (st.heading_text.getD ""), aliases)).1
        st.used_ids st.next_suffixes
      constructor
      · simp only [headingIdStep]
        rw [List.nodup_append]
        refine ⟨h.1, List.nodup_singleton _, ?_⟩
        intro i hi hii
        simp only [List.mem_singleton] at hii
        subst hii
        exact hfresh (h.2 _ hi)
      · simp only [headingIdStep]
        intro i hi
        rw [hused]
        rcases List.mem_append.mp hi with hh | hh
        · exact List.mem_cons_of_mem _ (h.2 i hh)
        · simp only [List.mem_singleton] at hh
          subst hh
          exact List.mem_cons_self _ _
    | _ => exact h
  | Text t => cases hh : st.heading_text <;> simp only [headingIdStep, hh] <;> exact h
  | Code t => cases hh : st.heading_text <;> simp only [headingIdStep, hh] <;> exact h
  | Html t => cases hh : st.heading_text <;> simp only [headingIdStep, hh] <;> exact h
  | InlineHtml t =>
    cases hh : st.heading_text <;> simp only [headingIdStep, hh] <;> exact h
  | InlineMath t =>
    cases hh : st.heading_text <;> simp only [headingIdStep, hh] <;> exact h
  | DisplayMath t =>
    cases hh : st.heading_text <;> simp only [headingIdStep, hh] <;> exact h
  | FootnoteReference t =>
    cases hh : st.heading_text <;> simp only [headingIdStep, hh] <;> exact h
  | SoftBreak =>
    cases hh : st.heading_text with
    | none => simpa only [headingIdStep, hh] using h
    | some cur =>
      by_cases he : endsWithSpace cur <;> simp only [headingIdStep, hh, he] <;>
        exact h
  | HardBreak =>
    cases hh : st.heading_text with
    | none => simpa only [headingIdStep, hh] using h
    | some cur =>
      by_cases he : endsWithSpace cur <;> simp only [headingIdStep, hh, he] <;>
        exact h
  | Rule => exact h
  | TaskListMarker checked => exact h

theorem foldl_headingIdStep_inv (events : List Event) :
    ∀ st : HeadingIdState, IdsInv st →
      IdsInv (events.foldl headingIdStep st) := by
  induction events with
  | nil => exact fun st h => h
  | cons ev rest ih =>
    intro st h
    exact ih (headingIdStep st ev) (headingIdStep_inv st ev h)

theorem collect_heading_ids_nodup (events : List Event) :
    (collect_heading_ids events).Nodup := by
  have := foldl_headingIdStep_inv events
    { ids := [], used_ids := [], next_suffixes := [],
      heading_aliases := collect_internal_heading_aliases events,
      heading_text := none, explicit_heading_id := none }
    ⟨List.nodup_nil, by simp⟩
  exact this.1

/-- The heading sequence of the spec's collision example: "Section",
"Section", "Section-1", "Section", as pulldown_cmark events. -/
def exampleHeadingEvents : List Event :=
  [Event.Start (Tag.Heading HeadingLevel.H2 none), Event.Text "Section",
   Event.End (TagEnd.Heading HeadingLevel.H2),
   Event.Start (Tag.Heading HeadingLevel.H2 none), Event.Text "Section",
   Event.End (TagEnd.Heading HeadingLevel.H2),
   Event.Start (Tag.Heading HeadingLevel.H2 none), Event.Text "Section-1",
   Event.End (TagEnd.Heading HeadingLevel.H2),
   Event.Start (Tag.Heading HeadingLevel.H2 none), Event.Text "Section",
   Event.End (TagEnd.Heading HeadingLevel.H2)]

/-- Claim C5.  The spec's example assigns `section`, `section-1`,
`section-1-1`, `section-2` in that order; and in general the id returned by
`unique_heading_id` is never one already assigned (the assigned-id list of
any document is duplicate-free), while on a collision the assigned id is
`base-N` with `N` at least the current per-base counter and the counter
moved up to `N + 1` — so suffixes per base increase monotonically and no
prior suffix is reused. -/
theorem heading_id_assignment_spec :
    collect_heading_ids exampleHeadingEvents =
      ["section", "section-1", "section-1-1", "section-2"] ∧
    (∀ (base : String) (used : List String) (next : List (String × Nat)),
      (unique_heading_id base used next).1 ∉ used ∧
      (unique_heading_id base used next).2.1 =
        (unique_heading_id base used next).1 :: used) ∧
    (∀ (base : String) (used : List String) (next : List (String × Nat)),
      base ∈ used →
      ∃ N, (alistLookup next base).getD 1 ≤ N ∧
        (unique_heading_id base used next).1 = base ++ "-" ++ toString N ∧
        alistLookup (unique_heading_id base used next).2.2 base = some (N + 1)) ∧
    (∀ events : List Event, (collect_heading_ids events).Nodup) := by
  refine ⟨?_, unique_heading_id_fresh, unique_heading_id_collision,
    collect_heading_ids_nodup⟩
  simp +decide only [collect_heading_ids, exampleHeadingEvents, List.foldl_cons,
    List.foldl_nil, collect_internal_heading_aliases, aliasStep, headingIdStep,
    unique_heading_id, uniqueLoop_hit, uniqueLoop_free, alistLookup, alistInsert,
    take_heading_alias, slugify_heading, slugifyAux, normalize_heading_lookup_text,
    normalizeLookupAux, rustIsAlphanumeric, rustLowerString, endsWithSpace,
    normalize_heading_id, Option.getD]

end LiveMarkdown
